import Mathlib

/-!
Shallow embedding of the netopshub telemetry core (backend/src/netopshub)
and proofs about its alerting, health, anomaly, topology, config and
forecast components.

Conventions of the embedding:
- Python floats are modelled as rationals (ℚ); datetimes as integer
  timestamps (seconds); uuid identifiers as strings (alerts) or a fresh
  counter (config snapshots).
- Python dicts that preserve insertion order are modelled as association
  lists with insert-or-replace semantics.
- Optional fields are Option; Python truthiness tests on optionals are
  translated explicitly (None and the empty string are falsy, and for
  floats the value 0.0 is falsy).
-/

namespace NetOpsHub

/-- Embeds models.AlertSeverity; the declaration order info, warning,
critical, emergency is the enum order used by list(AlertSeverity).index. -/
inductive AlertSeverity where
  | info
  | warning
  | critical
  | emergency
  deriving DecidableEq, Repr

/-- list(AlertSeverity).index s. -/
def AlertSeverity.index : AlertSeverity → Nat
  | .info => 0
  | .warning => 1
  | .critical => 2
  | .emergency => 3

/-- The .value string of the severity enum. -/
def AlertSeverity.value : AlertSeverity → String
  | .info => "info"
  | .warning => "warning"
  | .critical => "critical"
  | .emergency => "emergency"

/-- Embeds models.AlertState. -/
inductive AlertState where
  | active
  | acknowledged
  | resolved
  | suppressed
  deriving DecidableEq, Repr

/-- Embeds models.MetricType. -/
inductive MetricType where
  | cpu
  | memory
  | bandwidthIn
  | bandwidthOut
  | errorRate
  | discardRate
  | latency
  | jitter
  | packetLoss
  | temperature
  | power
  | fanSpeed
  | uptime
  | bgpPrefixes
  | ospfNeighbors
  | custom
  deriving DecidableEq, Repr

/-- The .value string of the metric-type enum. -/
def MetricType.value : MetricType → String
  | .cpu => "cpu"
  | .memory => "memory"
  | .bandwidthIn => "bandwidth_in"
  | .bandwidthOut => "bandwidth_out"
  | .errorRate => "error_rate"
  | .discardRate => "discard_rate"
  | .latency => "latency"
  | .jitter => "jitter"
  | .packetLoss => "packet_loss"
  | .temperature => "temperature"
  | .power => "power"
  | .fanSpeed => "fan_speed"
  | .uptime => "uptime"
  | .bgpPrefixes => "bgp_prefixes"
  | .ospfNeighbors => "ospf_neighbors"
  | .custom => "custom"

/-- Embeds models.Alert.  The pydantic uuid default for id is modelled by
an explicit string supplied at construction; tags and correlation_id are
omitted (no claim refers to them). -/
structure Alert where
  id : String
  deviceId : String
  deviceHostname : String := ""
  interfaceName : Option String := none
  severity : AlertSeverity
  state : AlertState := AlertState.active
  title : String := ""
  description : String := ""
  metricType : Option MetricType := none
  metricValue : Option ℚ := none
  thresholdValue : Option ℚ := none
  source : String := "threshold"
  createdAt : Int := 0
  acknowledgedAt : Option Int := none
  resolvedAt : Option Int := none
  acknowledgedBy : Option String := none
  deriving DecidableEq, Repr

/-- Embeds the dict entries appended by AlertManager.add_suppression_rule. -/
structure SuppressionRule where
  deviceId : Option String := none
  metricType : Option String := none
  startTime : Option Int := none
  endTime : Option Int := none
  reason : String := ""
  deriving DecidableEq, Repr

/-- Embeds the mutable state of monitor.alerting.AlertManager: the
insertion-ordered dict _alerts (as a list of alerts with unique ids) and
the list _suppression_rules.  Notification handlers are omitted (never
invoked in the embedded operations). -/
structure AlertManagerState where
  alerts : List Alert := []
  suppressionRules : List SuppressionRule := []
  deriving DecidableEq, Repr

/-- Python dict assignment d[a.id] = a for the insertion-ordered _alerts
dict: replace in place when the key exists, else append. -/
def dictInsert : List Alert → Alert → List Alert
  | [], a => [a]
  | e :: rest, a => if e.id = a.id then a :: rest else e :: dictInsert rest a

/-- Embeds AlertManager._is_suppressed.  Each nested test mirrors one
continue of the python loop, including the truthiness checks: a None
start/end time, a None or empty rule device/metric string, and a None
alert metric type make the corresponding condition falsy. -/
def isSuppressed (now : Int) (s : AlertManagerState) (a : Alert) : Bool :=
  s.suppressionRules.any (fun r =>
    if (match r.startTime with
        | some st => decide (now < st)
        | none => false) then false
    else if (match r.endTime with
        | some et => decide (et < now)
        | none => false) then false
    else if (match r.deviceId with
        | some d => d ≠ "" && d ≠ a.deviceId
        | none => false) then false
    else if (match r.metricType with
        | some mt => mt ≠ "" &&
            (match a.metricType with
             | some amt => mt ≠ amt.value
             | none => false)
        | none => false) then false
    else true)

/-- The duplicate test of AlertManager.add_alert: same device_id, same
metric_type, and the existing alert is active. -/
def isActiveMatch (a e : Alert) : Bool :=
  decide (e.deviceId = a.deviceId) && decide (e.metricType = a.metricType)
    && decide (e.state = AlertState.active)

/-- max(existing.severity, alert.severity, key=index): python max keeps
the first argument unless the second is strictly larger. -/
def sevMax (old new : AlertSeverity) : AlertSeverity :=
  if old.index < new.index then new else old

/-- The in-place update add_alert applies to a matching active alert:
metric_value and description are overwritten and severity escalates. -/
def escalate (e a : Alert) : Alert :=
  { e with metricValue := a.metricValue, description := a.description,
           severity := sevMax e.severity a.severity }

/-- The scan of add_alert over _alerts.values(): find the first active
duplicate, update it in place, and return it together with the updated
dict; none when no active duplicate exists. -/
def dedupUpdate (a : Alert) : List Alert → Option (Alert × List Alert)
  | [] => none
  | e :: rest =>
    if isActiveMatch a e then
      some (escalate e a, escalate e a :: rest)
    else
      match dedupUpdate a rest with
      | some (u, rest') => some (u, e :: rest')
      | none => none

/-- Embeds AlertManager.add_alert. -/
def addAlert (now : Int) (s : AlertManagerState) (a : Alert) :
    Alert × AlertManagerState :=
  let a := if isSuppressed now s a then { a with state := AlertState.suppressed } else a
  match dedupUpdate a s.alerts with
  | some (u, alerts') => (u, { s with alerts := alerts' })
  | none => (a, { s with alerts := dictInsert s.alerts a })

/-- Embeds the dict lookup self._alerts.get(alert_id). -/
def lookupAlert (s : AlertManagerState) (alertId : String) : Option Alert :=
  s.alerts.find? (fun e => e.id = alertId)

/-- Replacing the entry whose id equals a.id (python mutates the stored
object in place, leaving the dict order unchanged). -/
def updateAlertEntry (l : List Alert) (a : Alert) : List Alert :=
  l.map (fun e => if e.id = a.id then a else e)

/-- Embeds AlertManager.acknowledge. -/
def acknowledge (now : Int) (s : AlertManagerState) (alertId who : String) :
    Option Alert × AlertManagerState :=
  match lookupAlert s alertId with
  | some a =>
    if a.state = AlertState.active then
      let a' := { a with state := AlertState.acknowledged,
                         acknowledgedAt := some now,
                         acknowledgedBy := some who }
      (some a', { s with alerts := updateAlertEntry s.alerts a' })
    else (none, s)
  | none => (none, s)

/-- Embeds AlertManager.resolve. -/
def resolve (now : Int) (s : AlertManagerState) (alertId : String) :
    Option Alert × AlertManagerState :=
  match lookupAlert s alertId with
  | some a =>
    if a.state = AlertState.active ∨ a.state = AlertState.acknowledged then
      let a' := { a with state := AlertState.resolved, resolvedAt := some now }
      (some a', { s with alerts := updateAlertEntry s.alerts a' })
    else (none, s)
  | none => (none, s)

/-- Embeds the total_alerts property (len of the _alerts dict). -/
def totalAlerts (s : AlertManagerState) : Nat := s.alerts.length



/-! ### Helper lemmas about the alert-manager operations -/

/-- Concrete alerts and manager state used by the witnesses below. -/
def wAlertA : Alert :=
  { id := "a1", deviceId := "d1", severity := AlertSeverity.warning,
    metricType := some MetricType.cpu, metricValue := some 91,
    description := "cpu is 91" }

def wAlertB : Alert :=
  { id := "a2", deviceId := "d1", severity := AlertSeverity.critical,
    metricType := some MetricType.cpu, metricValue := some 96,
    description := "cpu is 96" }

def wManagerState : AlertManagerState := {}

/-- The field update acknowledge applies to an active alert. -/
def ackUpdate (now : Int) (who : String) (a : Alert) : Alert :=
  { a with state := AlertState.acknowledged, acknowledgedAt := some now,
           acknowledgedBy := some who }

/-- The field update resolve applies to an active or acknowledged alert. -/
def resUpdate (now : Int) (a : Alert) : Alert :=
  { a with state := AlertState.resolved, resolvedAt := some now }

/-- A resolved alert used by the state-machine witness. -/
def wAlertR : Alert :=
  { id := "r1", deviceId := "d2", severity := AlertSeverity.info,
    state := AlertState.resolved }

/-- Manager state holding one active and one resolved alert. -/
def wManagerState2 : AlertManagerState :=
  { alerts := [wAlertA, wAlertR] }

/-- A suppression rule covering device d1 at all times. -/
def wRule : SuppressionRule := { deviceId := some "d1" }

/-- Manager state with one active alert on (d1, cpu) and a suppression
rule for d1. -/
def wManagerState3 : AlertManagerState :=
  { alerts := [wAlertA], suppressionRules := [wRule] }

/-- A resolved alert on (d1, cpu). -/
def wAlertRes : Alert :=
  { id := "a9", deviceId := "d1", severity := AlertSeverity.warning,
    state := AlertState.resolved, metricType := some MetricType.cpu }

/-- Manager state with only a resolved alert on (d1, cpu). -/
def wManagerState4 : AlertManagerState := { alerts := [wAlertRes] }

/-- Embeds models.Metric; source collector, tags and metadata are omitted
(no claim refers to them). -/
structure Metric where
  id : String := ""
  deviceId : String
  deviceHostname : String := ""
  interfaceName : Option String := none
  metricType : MetricType
  value : ℚ
  unit : String := ""
  timestamp : Int := 0
  deriving DecidableEq, Repr

/-- Embeds models.MetricThreshold. -/
structure MetricThreshold where
  metricType : MetricType
  warningThreshold : ℚ
  criticalThreshold : ℚ
  emergencyThreshold : Option ℚ := none
  comparison : String := "gt"
  durationSeconds : Int := 60
  deviceFilter : Option String := none
  interfaceFilter : Option String := none
  deriving DecidableEq, Repr

/-- Embeds monitor.health.DEFAULT_THRESHOLDS. -/
def DEFAULT_THRESHOLDS : List MetricThreshold :=
  [ { metricType := MetricType.cpu, warningThreshold := 70,
      criticalThreshold := 85, emergencyThreshold := some 95 },
    { metricType := MetricType.memory, warningThreshold := 75,
      criticalThreshold := 90, emergencyThreshold := some 97 },
    { metricType := MetricType.errorRate, warningThreshold := 1,
      criticalThreshold := 5, emergencyThreshold := some 10 },
    { metricType := MetricType.temperature, warningThreshold := 65,
      criticalThreshold := 75, emergencyThreshold := some 85 },
    { metricType := MetricType.packetLoss, warningThreshold := 1/2,
      criticalThreshold := 2, emergencyThreshold := some 5 } ]

/-- Dict get on a string-keyed association list. -/
def assocGet {α : Type} (l : List (String × α)) (k : String) : Option α :=
  (l.find? (fun p => p.1 = k)).map Prod.snd

/-- Dict get with default. -/
def assocGetD {α : Type} (l : List (String × α)) (k : String) (d : α) : α :=
  (assocGet l k).getD d

/-- Dict assignment d[k] = v: replace in place, else append. -/
def assocSet {α : Type} : List (String × α) → String → α → List (String × α)
  | [], k, v => [(k, v)]
  | p :: rest, k, v => if p.1 = k then (k, v) :: rest else p :: assocSet rest k v

/-- Python slice xs[-n:]: the last n elements, the whole list when n = 0. -/
def pySliceLast {α : Type} (xs : List α) (n : Nat) : List α :=
  if n = 0 then xs else xs.drop (xs.length - n)

/-- Embeds the mutable state of monitor.health.HealthMonitor.  The
_thresholds dict comprehension over the threshold list is modelled by
keeping the list and looking types up from the right (later entries win,
as in a dict comprehension). -/
structure HealthMonitorState where
  thresholds : List MetricThreshold
  metricHistory : List (String × List Metric) := []
  alerts : List Alert := []
  maxHistory : Nat := 1000
  deriving DecidableEq, Repr

/-- HealthMonitor.__init__ with optional thresholds. -/
def HealthMonitor.init (ts : Option (List MetricThreshold)) : HealthMonitorState :=
  { thresholds := ts.getD DEFAULT_THRESHOLDS, metricHistory := [], alerts := [],
    maxHistory := 1000 }

/-- The dict lookup self._thresholds.get(metric.metric_type); the
rightmost threshold of the given type wins, as in the comprehension that
built the dict. -/
def getThreshold (ts : List MetricThreshold) (mt : MetricType) : Option MetricThreshold :=
  ts.reverse.find? (fun t => t.metricType = mt)

/-- The series key f-string device_id:metric_type.value. -/
def seriesKey (m : Metric) : String := m.deviceId ++ ":" ++ m.metricType.value

/-- The tier chain of HealthMonitor._check_threshold: the emergency tier
is guarded by python truthiness of emergency_threshold (None or 0.0 skip
it), then critical, then warning, each a >= comparison; the branch
duplication mirrors the short-circuit of the leading and. -/
def thresholdHit (t : MetricThreshold) (value : ℚ) : Option (AlertSeverity × ℚ) :=
  match t.emergencyThreshold with
  | some e =>
    if e ≠ 0 ∧ value ≥ e then some (AlertSeverity.emergency, e)
    else if value ≥ t.criticalThreshold then some (AlertSeverity.critical, t.criticalThreshold)
    else if value ≥ t.warningThreshold then some (AlertSeverity.warning, t.warningThreshold)
    else none
  | none =>
    if value ≥ t.criticalThreshold then some (AlertSeverity.critical, t.criticalThreshold)
    else if value ≥ t.warningThreshold then some (AlertSeverity.warning, t.warningThreshold)
    else none

/-- Embeds HealthMonitor._check_threshold.  The alert id (a uuid default
in the source) is modelled as the empty string; the f-string number
formatting inside title/description is modelled with toString. -/
def checkThreshold (ts : List MetricThreshold) (m : Metric) : Option Alert :=
  match getThreshold ts m.metricType with
  | none => none
  | some t =>
    match thresholdHit t m.value with
    | none => none
    | some (sev, thr) =>
      some { id := "",
             deviceId := m.deviceId,
             deviceHostname := m.deviceHostname,
             interfaceName := m.interfaceName,
             severity := sev,
             state := AlertState.active,
             title := m.metricType.value.toUpper ++ " threshold exceeded on " ++
               (if m.deviceHostname ≠ "" then m.deviceHostname else m.deviceId),
             description := m.metricType.value ++ " is " ++ toString m.value ++ m.unit ++
               ", exceeding " ++ sev.value ++ " threshold of " ++ toString thr ++ m.unit,
             metricType := some m.metricType,
             metricValue := some m.value,
             thresholdValue := some thr,
             source := "health_monitor" }

/-- One iteration of the loop body of HealthMonitor.process_metrics:
append to the series, trim to max_history, then check the threshold. -/
def processOne (s : HealthMonitorState) (m : Metric) : HealthMonitorState × Option Alert :=
  let key := seriesKey m
  let hist := assocGetD s.metricHistory key [] ++ [m]
  let hist := if hist.length > s.maxHistory then pySliceLast hist s.maxHistory else hist
  let s' := { s with metricHistory := assocSet s.metricHistory key hist }
  match checkThreshold s'.thresholds m with
  | some a => ({ s' with alerts := s'.alerts ++ [a] }, some a)
  | none => (s', none)

/-- Embeds HealthMonitor.process_metrics. -/
def processMetrics (s : HealthMonitorState) (ms : List Metric) :
    List Alert × HealthMonitorState :=
  ms.foldl (fun acc m =>
    let r := processOne acc.2 m
    (acc.1 ++ (match r.2 with | some a => [a] | none => []), r.1)) ([], s)

/-- A latency metric (no default threshold is configured for latency). -/
def wMetricLat : Metric :=
  { deviceId := "d1", metricType := MetricType.latency, value := 10 }

/-- Health-monitor state whose latency series is already at the cap. -/
def wHealthFull : HealthMonitorState :=
  { thresholds := DEFAULT_THRESHOLDS,
    metricHistory := [(seriesKey wMetricLat, List.replicate 1000 wMetricLat)],
    maxHistory := 1000 }

/-- The default cpu threshold (warning 70, critical 85, emergency 95). -/
def wCpuThreshold : MetricThreshold :=
  { metricType := MetricType.cpu, warningThreshold := 70,
    criticalThreshold := 85, emergencyThreshold := some 95 }

/-- A cpu metric with value 90. -/
def wMetricCpu90 : Metric :=
  { deviceId := "d1", metricType := MetricType.cpu, value := 90 }

/-- A threshold whose emergency tier is 0.0, which python treats as
falsy. -/
def cexThreshold : MetricThreshold :=
  { metricType := MetricType.cpu, warningThreshold := -10,
    criticalThreshold := -5, emergencyThreshold := some 0 }

/-- A cpu metric with value 0, satisfying the configured emergency tier
0 under the >= comparison. -/
def cexMetric : Metric :=
  { deviceId := "d1", metricType := MetricType.cpu, value := 0 }

/-- Embeds models.ConfigSnapshot; the uuid id is modelled by a fresh
counter value drawn from the manager state; tags are omitted. -/
structure ConfigSnapshot where
  id : Nat
  deviceId : String
  deviceHostname : String := ""
  configText : String
  configHash : String := ""
  capturedAt : Int := 0
  source : String := "manual"
  deriving DecidableEq, Repr

/-- Embeds the mutable state of config.manager.ConfigManager: the
per-device snapshot lists and golden configs, plus the fresh-id counter
standing in for uuid4. -/
structure ConfigManagerState where
  snapshots : List (String × List ConfigSnapshot) := []
  goldenConfigs : List (String × String) := []
  nextId : Nat := 0
  deriving DecidableEq, Repr

/-- The ConfigSnapshot(...) construction inside backup_config. -/
def newSnapshot (s : ConfigManagerState)
    (deviceId configText configHash source hostname : String) : ConfigSnapshot :=
  { id := s.nextId, deviceId := deviceId,
    deviceHostname := if hostname ≠ "" then hostname else deviceId,
    configText := configText, configHash := configHash, source := source }

/-- Embeds ConfigManager.backup_config.  The function takes the sha-256
hex digest as an explicit function parameter (hashlib is library code,
not part of this repository); every property below holds for an
arbitrary hash function, in particular for sha-256. -/
def backupConfig (sha256 : String → String) (s : ConfigManagerState)
    (deviceId configText source hostname : String) :
    ConfigSnapshot × ConfigManagerState :=
  let configHash := sha256 configText
  let existing := assocGetD s.snapshots deviceId []
  match existing.getLast? with
  | some last =>
    if last.configHash = configHash then
      (last, s)
    else
      let snapshot := newSnapshot s deviceId configText configHash source hostname
      (snapshot,
       { s with snapshots := assocSet s.snapshots deviceId (existing ++ [snapshot]),
                nextId := s.nextId + 1 })
  | none =>
    let snapshot := newSnapshot s deviceId configText configHash source hostname
    (snapshot,
     { s with snapshots := assocSet s.snapshots deviceId (existing ++ [snapshot]),
              nextId := s.nextId + 1 })

/-- Embeds ConfigManager.get_latest. -/
def getLatest (s : ConfigManagerState) (deviceId : String) : Option ConfigSnapshot :=
  (assocGetD s.snapshots deviceId []).getLast?

/-- Embeds the total_snapshots property. -/
def totalSnapshots (s : ConfigManagerState) : Nat :=
  (s.snapshots.map (fun p => p.2.length)).sum

/-- Embeds anomaly.detector.MaintenanceWindow; the source field named end
is called stop here (end is a Lean keyword). -/
structure MaintenanceWindow where
  name : String
  start : Int
  stop : Int
  deviceIds : Option (List String) := none
  deriving DecidableEq, Repr

/-- Embeds MaintenanceWindow.is_active with the caller passing now. -/
def MaintenanceWindow.isActive (w : MaintenanceWindow) (now : Int) : Bool :=
  decide (w.start ≤ now) && decide (now ≤ w.stop)

/-- Embeds MaintenanceWindow.covers_device: None means all devices. -/
def MaintenanceWindow.coversDevice (w : MaintenanceWindow) (deviceId : String) : Bool :=
  match w.deviceIds with
  | none => true
  | some ids => ids.contains deviceId

/-- Embeds anomaly.detector.AnomalyResult.  The score and details fields
are omitted: for the z-score and EWMA methods the score is an irrational
square-root value, and no claim refers to score or details. -/
structure AnomalyResult where
  isAnomaly : Bool
  method : String
  metric : Metric
  timestamp : Int
  deriving DecidableEq, Repr

/-- Embeds the mutable state of anomaly.detector.AnomalyDetector with the
constructor defaults. -/
structure AnomalyDetectorState where
  zScoreThreshold : ℚ := 3
  iqrMultiplier : ℚ := 3/2
  ewmaAlpha : ℚ := 3/10
  minSamples : Nat := 10
  history : List (String × List ℚ) := []
  ewma : List (String × ℚ) := []
  ewmaVar : List (String × ℚ) := []
  maintenanceWindows : List MaintenanceWindow := []
  anomalies : List AnomalyResult := []
  maxHistory : Nat := 2000
  deriving DecidableEq, Repr

/-- statistics.mean. -/
def listMean (l : List ℚ) : ℚ := l.sum / l.length

/-- The square of statistics.stdev (sample variance with the n - 1
denominator). -/
def sampleVariance (l : List ℚ) : ℚ :=
  ((l.map (fun x => (x - listMean l) ^ 2)).sum) / ((l.length : ℚ) - 1)

/-- Embeds AnomalyDetector._z_score_detect.  The source compares
abs value - mean / stdev > threshold with stdev an irrational square
root; here the equivalent squared comparison is used (equivalent for the
nonnegative default threshold 3.0), and std == 0 becomes variance = 0. -/
def zScoreDetect (s : AnomalyDetectorState) (now : Int) (m : Metric)
    (history : List ℚ) : Option AnomalyResult :=
  let mean := listMean history
  let var := if history.length > 1 then sampleVariance history else 0
  if var = 0 then none
  else if (m.value - mean) ^ 2 > s.zScoreThreshold ^ 2 * var then
    some { isAnomaly := true, method := "z_score", metric := m, timestamp := now }
  else none

/-- Embeds AnomalyDetector._iqr_detect.  Out-of-range indexing cannot
occur at the call sites (history length is at least min_samples); getD
makes the model total. -/
def iqrDetect (s : AnomalyDetectorState) (now : Int) (m : Metric)
    (history : List ℚ) : Option AnomalyResult :=
  let sortedVals := history.mergeSort (fun a b => decide (a ≤ b))
  let n := sortedVals.length
  let q1 := sortedVals.getD (n / 4) 0
  let q3 := sortedVals.getD (3 * n / 4) 0
  let iqr := q3 - q1
  let lower := q1 - s.iqrMultiplier * iqr
  let upper := q3 + s.iqrMultiplier * iqr
  if m.value < lower ∨ m.value > upper then
    some { isAnomaly := true, method := "iqr", metric := m, timestamp := now }
  else none

/-- Embeds AnomalyDetector._ewma_detect, including its state updates.
As for z-score, the std comparison is squared (std is sqrt of the
variance) and std == 0 becomes the variance being nonpositive. -/
def ewmaDetect (s : AnomalyDetectorState) (now : Int) (m : Metric) (key : String) :
    Option AnomalyResult × AnomalyDetectorState :=
  match assocGet s.ewma key with
  | none =>
    (none, { s with ewma := assocSet s.ewma key m.value,
                    ewmaVar := assocSet s.ewmaVar key 0 })
  | some prevEwma =>
    let alpha := s.ewmaAlpha
    let newEwma := alpha * m.value + (1 - alpha) * prevEwma
    let diff := m.value - prevEwma
    let newVar := alpha * diff ^ 2 + (1 - alpha) * assocGetD s.ewmaVar key 0
    let s' := { s with ewma := assocSet s.ewma key newEwma,
                       ewmaVar := assocSet s.ewmaVar key newVar }
    if ¬ newVar > 0 then (none, s')
    else if diff ^ 2 > s.zScoreThreshold ^ 2 * newVar then
      (some { isAnomaly := true, method := "ewma", metric := m, timestamp := now }, s')
    else (none, s')

/-- Embeds AnomalyDetector._in_maintenance with the caller passing now. -/
def inMaintenance (s : AnomalyDetectorState) (now : Int) (deviceId : String) : Bool :=
  s.maintenanceWindows.any (fun w => w.isActive now && w.coversDevice deviceId)

/-- Embeds AnomalyDetector.detect for the default method list
[z_score, iqr, ewma] (the only form the claims exercise): append to the
series and trim, then the maintenance gate, then the min_samples gate,
then the three detectors in order, extending _anomalies with the
results. -/
def detect (s : AnomalyDetectorState) (now : Int) (m : Metric) :
    List AnomalyResult × AnomalyDetectorState :=
  let key := m.deviceId ++ ":" ++ m.metricType.value
  let hist0 := assocGetD s.history key [] ++ [m.value]
  let hist := if hist0.length > s.maxHistory then pySliceLast hist0 s.maxHistory else hist0
  let s1 := { s with history := assocSet s.history key hist }
  if inMaintenance s1 now m.deviceId then ([], s1)
  else if hist.length < s1.minSamples then ([], s1)
  else
    let r1 := zScoreDetect s1 now m hist
    let r2 := iqrDetect s1 now m hist
    let p := ewmaDetect s1 now m key
    let results := [r1, r2, p.1].filterMap id
    (results, { p.2 with anomalies := p.2.anomalies ++ results })

/-- A maintenance window covering device d1 from one hour before to one
hour after time 0. -/
def wWindow : MaintenanceWindow :=
  { name := "mw", start := -3600, stop := 3600, deviceIds := some ["d1"] }

/-- A detector holding that window. -/
def wDetector0 : AnomalyDetectorState := { maintenanceWindows := [wWindow] }

/-- A cpu metric on d1 with value 50. -/
def wMetricCpu50 : Metric :=
  { deviceId := "d1", metricType := MetricType.cpu, value := 50 }

/-- A cpu metric on d1 with value 200. -/
def wMetric200 : Metric :=
  { deviceId := "d1", metricType := MetricType.cpu, value := 200 }

/-- The detector after feeding 15 values of 50 under the window. -/
def wDetector15 : AnomalyDetectorState :=
  (List.replicate 15 wMetricCpu50).foldl (fun st mm => (detect st 0 mm).2) wDetector0

/-- The window test of correlate_anomalies: the absolute difference of
the two timestamps is within window_seconds.  In the source the inner
loop always compares against the seed anomaly of the current group. -/
def withinWindow (w : Int) (a b : AnomalyResult) : Bool :=
  decide (|a.timestamp - b.timestamp| ≤ w)

/-- The grouping loop of AnomalyDetector.correlate_anomalies, with an
explicit fuel argument making the recursion structural (the list handed
to the recursive call is a filter of the tail, so fuel = initial length
never runs out).  The index/used-set loop of the source is equivalent
to: take the first unused anomaly as seed, absorb every later unused
anomaly within window of the seed (order preserved), and continue with
the rest. -/
def correlateGroupsFuel (w : Int) : Nat → List AnomalyResult → List (List AnomalyResult)
  | _, [] => []
  | 0, _ :: _ => []
  | Nat.succ n, a :: rest =>
    (a :: rest.filter (withinWindow w a)) ::
      correlateGroupsFuel w n (rest.filter (fun b => ! withinWindow w a b))

/-- The grouping pass over the recorded anomalies. -/
def correlateGroups (w : Int) (l : List AnomalyResult) : List (List AnomalyResult) :=
  correlateGroupsFuel w l.length l

/-- The per-group summary dict of correlate_anomalies. -/
structure CorrelationGroup where
  size : Nat
  devices : List String
  metrics : List String
  timeSpanSeconds : Int
  deriving DecidableEq, Repr

/-- max of the group timestamps (python max over a nonempty generator;
the empty case yields 0 and is never reached). -/
def maxTs (g : List AnomalyResult) : Int :=
  match g.map (fun a => a.timestamp) with
  | [] => 0
  | t :: ts => ts.foldl max t

/-- min of the group timestamps. -/
def minTs (g : List AnomalyResult) : Int :=
  match g.map (fun a => a.timestamp) with
  | [] => 0
  | t :: ts => ts.foldl min t

/-- The summary dict built for each kept group; list(set(...)) is
modelled as dedup (first occurrences) - the claims speak about the set
of distinct ids, i.e. membership and nodup. -/
def summarize (g : List AnomalyResult) : CorrelationGroup :=
  { size := g.length,
    devices := (g.map (fun a => a.metric.deviceId)).dedup,
    metrics := (g.map (fun a => a.metric.metricType.value)).dedup,
    timeSpanSeconds := maxTs g - minTs g }

/-- Embeds AnomalyDetector.correlate_anomalies: group, drop singleton
groups, summarize. -/
def correlateAnomalies (s : AnomalyDetectorState) (windowSeconds : Int) :
    List CorrelationGroup :=
  ((correlateGroups windowSeconds s.anomalies).filter (fun g => g.length > 1)).map
    summarize

/-- An anomaly result at a given timestamp. -/
def wAnom (ts : Int) : AnomalyResult :=
  { isAnomaly := true, method := "z_score", metric := wMetricCpu50, timestamp := ts }

/-- Detector state with three recorded anomalies at times 0, 100, 1000. -/
def wDetectorAnoms : AnomalyDetectorState :=
  { anomalies := [wAnom 0, wAnom 100, wAnom 1000] }

/-- The summary of the one kept group: the anomalies at times 0 and 100
(time 1000 is beyond the 300 s window and its singleton group is
dropped). -/
def wSumm : CorrelationGroup :=
  { size := 2, devices := ["d1"], metrics := ["cpu"], timeSpanSeconds := 100 }

/-- Python round to an integer: banker's rounding (round half to even).
Floats are modelled as exact rationals throughout. -/
def roundHalfEven (q : ℚ) : ℤ :=
  let n := ⌊q⌋
  let r := q - n
  if r < 1/2 then n
  else if r > 1/2 then n + 1
  else if n % 2 = 0 then n else n + 1

/-- Python round(q, d). -/
def pyRound (q : ℚ) (d : Nat) : ℚ :=
  (roundHalfEven (q * 10 ^ d) : ℚ) / 10 ^ d

/-- Embeds ForecastAgent._linear_regression, returning (slope, intercept). -/
def linearRegression (x y : List ℚ) : ℚ × ℚ :=
  if x.length = 0 then (0, 0)
  else
    let n : ℚ := x.length
    let sumX := x.sum
    let sumY := y.sum
    let sumXY := ((x.zip y).map (fun p => p.1 * p.2)).sum
    let sumX2 := (x.map (fun xi => xi ^ 2)).sum
    let denom := n * sumX2 - sumX ^ 2
    if denom = 0 then (0, sumY / n)
    else
      let slope := (n * sumXY - sumX * sumY) / denom
      (slope, (sumY - slope * sumX) / n)

/-- Embeds ForecastAgent._calculate_confidence: R-squared, clamped below
at 0 and rounded to 3 digits, with 1.0 when ss_tot is zero. -/
def calculateConfidence (x y : List ℚ) (slope intercept : ℚ) : ℚ :=
  let yMean := listMean y
  let ssTot := (y.map (fun yi => (yi - yMean) ^ 2)).sum
  let ssRes := ((x.zip y).map (fun p => (p.2 - (slope * p.1 + intercept)) ^ 2)).sum
  if ssTot = 0 then 1
  else pyRound (max 0 (1 - ssRes / ssTot)) 3

/-- The result dict of ForecastAgent.predict_threshold_breach; the
message strings and the absolute estimated_breach_time are omitted, the
latter represented by the clipped delay max(0, seconds_to_breach) that
the source adds to utcnow. -/
inductive ForecastPrediction where
  | insufficientData
  | noBreach (slope currentValue threshold : ℚ) (trend : String)
  | breachPredicted (currentValue threshold slopePerInterval
      breachDelaySeconds timeToBreachHours confidence : ℚ)
  deriving DecidableEq, Repr

/-- Embeds ForecastAgent.predict_threshold_breach (interval_seconds is
the keyword parameter, default 60 in the source). -/
def predictThresholdBreach (values : List ℚ) (threshold : ℚ)
    (intervalSeconds : ℚ) : ForecastPrediction :=
  if values.length < 3 then ForecastPrediction.insufficientData
  else
    let n := values.length
    let x := (List.range n).map (fun i => (i : ℚ))
    let sb := linearRegression x values
    let slope := sb.1
    let intercept := sb.2
    if slope ≤ 0 then
      ForecastPrediction.noBreach (pyRound slope 6) (pyRound (values.getLastD 0) 2)
        threshold (if slope < 0 then "decreasing" else "stable")
    else
      let stepsToBreach := (threshold - values.getLastD 0) / slope
      let secondsToBreach := stepsToBreach * intervalSeconds
      ForecastPrediction.breachPredicted (pyRound (values.getLastD 0) 2) threshold
        (pyRound slope 6) (max 0 secondsToBreach)
        (pyRound (secondsToBreach / 3600) 1)
        (calculateConfidence x values slope intercept)

/-- The adjacency built by TopologyDiscovery.add_neighbor from the
(local_device_id, remote_device_id) pairs of the stored Neighbor
records: each pair adds the remote to adjacency[local] and the local to
adjacency[remote]; the defaultdict of sets is represented as the
function from a device to its neighbor set (the other Neighbor fields do
not affect the adjacency). -/
def adjacencyOf (ns : List (String × String)) (v : String) : Finset String :=
  ((ns.filterMap (fun p => if p.1 = v then some p.2 else none)) ++
   (ns.filterMap (fun p => if p.2 = v then some p.1 else none))).toFinset

/-- One iteration of the loop of TopologyDiscovery.get_blast_radius on
the pair (affected, current_layer): the next layer collects neighbors of
the current layer that are not yet affected and differ from the source,
and affected absorbs it. -/
def blastStep (adj : String → Finset String) (deviceId : String) :
    Finset String × Finset String → Finset String × Finset String :=
  fun p =>
    let next := (p.2.biUnion adj).filter (fun v => v ∉ p.1 ∧ v ≠ deviceId)
    (p.1 ∪ next, next)

/-- Embeds TopologyDiscovery.get_blast_radius: max_hops layer expansions
from (affected = ∅, current_layer = set containing the source). -/
def get_blast_radius (adj : String → Finset String) (deviceId : String)
    (maxHops : Nat) : Finset String :=
  ((blastStep adj deviceId)^[maxHops] (∅, {deviceId})).1

/-- v is reachable from d in exactly n adjacency steps. -/
def reachN (adj : String → Finset String) (d : String) : Nat → String → Prop
  | 0, v => v = d
  | n + 1, v => ∃ u, reachN adj d n u ∧ v ∈ adj u

/-- v is reachable from d within n hops. -/
def reachLe (adj : String → Finset String) (d : String) (n : Nat) (v : String) : Prop :=
  ∃ m, m ≤ n ∧ reachN adj d m v

/-- Neighbor pairs of a three-node path a - b - c. -/
def wNeighbors : List (String × String) := [("a", "b"), ("b", "c")]

/-! ### Theorems -/

theorem isActiveMatch_setState (a x : Alert) (st : AlertState) :
    isActiveMatch { a with state := st } x = isActiveMatch a x := rfl

theorem escalate_setState (e a : Alert) (st : AlertState) :
    escalate e { a with state := st } = escalate e a := rfl

theorem sevMax_index (o n : AlertSeverity) :
    (sevMax o n).index = max o.index n.index := by
  unfold sevMax
  split <;> omega

theorem dedupUpdate_setState (a : Alert) (st : AlertState) (l : List Alert) :
    dedupUpdate { a with state := st } l = dedupUpdate a l := by
  induction l with
  | nil => rfl
  | cons e rest ih =>
    simp only [dedupUpdate, isActiveMatch_setState, escalate_setState, ih]

theorem isActiveMatch_congr (a b x : Alert)
    (hdev : b.deviceId = a.deviceId) (hmt : b.metricType = a.metricType) :
    isActiveMatch b x = isActiveMatch a x := by
  simp only [isActiveMatch, hdev, hmt]

theorem dedupUpdate_eq_none_iff (a : Alert) (l : List Alert) :
    dedupUpdate a l = none ↔ ∀ e ∈ l, isActiveMatch a e = false := by
  induction l with
  | nil => simp [dedupUpdate]
  | cons e rest ih =>
    cases h : isActiveMatch a e with
    | true =>
      constructor
      · intro hc
        simp [dedupUpdate, h] at hc
      · intro hall
        have := hall e (by simp)
        rw [h] at this
        cases this
    | false =>
      constructor
      · intro hc x hx
        rcases List.mem_cons.mp hx with rfl | hx'
        · exact h
        · refine (ih.mp ?_) x hx'
          simp only [dedupUpdate, h, Bool.false_eq_true, if_false] at hc
          cases hd : dedupUpdate a rest with
          | none => rfl
          | some ul =>
            rw [hd] at hc
            obtain ⟨u, r⟩ := ul
            simp at hc
      · intro hall
        simp only [dedupUpdate, h, Bool.false_eq_true, if_false]
        have hn : dedupUpdate a rest = none :=
          ih.mpr (fun x hx => hall x (List.mem_cons_of_mem _ hx))
        rw [hn]

theorem dedupUpdate_length (a : Alert) :
    ∀ l u l', dedupUpdate a l = some (u, l') → l'.length = l.length := by
  intro l
  induction l with
  | nil => intro u l' h; simp [dedupUpdate] at h
  | cons e rest ih =>
    intro u l' h
    by_cases hm : isActiveMatch a e
    · simp only [dedupUpdate, hm, if_true] at h
      cases h
      simp
    · simp only [dedupUpdate, hm, Bool.false_eq_true, if_false] at h
      cases hd : dedupUpdate a rest with
      | none => rw [hd] at h; exact absurd h (by simp)
      | some ul =>
        rw [hd] at h
        cases ul with
        | mk u0 rest' =>
          simp only [Option.some.injEq, Prod.mk.injEq] at h
          obtain ⟨hu, hl⟩ := h
          subst hl
          simp [ih u0 rest' hd]

theorem dedupUpdate_of_find (a : Alert) :
    ∀ l e, l.find? (fun x => isActiveMatch a x) = some e →
      ∃ pre post, l = pre ++ e :: post ∧ (∀ x ∈ pre, isActiveMatch a x = false) ∧
        dedupUpdate a l = some (escalate e a, pre ++ escalate e a :: post) := by
  intro l
  induction l with
  | nil => intro e h; simp [List.find?] at h
  | cons x rest ih =>
    intro e h
    by_cases hm : isActiveMatch a x
    · rw [List.find?_cons_of_pos _ hm] at h
      cases h
      exact ⟨[], rest, by simp, by simp, by simp [dedupUpdate, hm]⟩
    · rw [List.find?_cons_of_neg _ hm] at h
      obtain ⟨pre, post, hl, hpre, hd⟩ := ih e h
      refine ⟨x :: pre, post, by simp [hl], ?_, ?_⟩
      · intro y hy
        rcases List.mem_cons.mp hy with rfl | hy'
        · exact Bool.eq_false_iff.mpr hm
        · exact hpre y hy'
      · simp [dedupUpdate, hm, hd]

theorem dictInsert_fresh (a : Alert) :
    ∀ l, (∀ e ∈ l, e.id ≠ a.id) → dictInsert l a = l ++ [a] := by
  intro l
  induction l with
  | nil => intro _; rfl
  | cons e rest ih =>
    intro h
    have he : e.id ≠ a.id := h e (by simp)
    simp only [dictInsert, he, if_false]
    rw [ih (fun x hx => h x (by simp [hx]))]
    simp

theorem dedupUpdate_append_of_none (b : Alert) :
    ∀ l1 l2, dedupUpdate b l1 = none →
      dedupUpdate b (l1 ++ l2) =
        (dedupUpdate b l2).map (fun ul => (ul.1, l1 ++ ul.2)) := by
  intro l1
  induction l1 with
  | nil =>
    intro l2 _
    cases hd : dedupUpdate b l2 with
    | none => simp [hd]
    | some ul => simp [hd]
  | cons e rest ih =>
    intro l2 h
    have he : isActiveMatch b e = false := by
      cases hm : isActiveMatch b e with
      | false => rfl
      | true => simp [dedupUpdate, hm] at h
    have hrest : dedupUpdate b rest = none := by
      simp only [dedupUpdate, he, Bool.false_eq_true, if_false] at h
      cases hd : dedupUpdate b rest with
      | none => rfl
      | some ul =>
        rw [hd] at h
        obtain ⟨u, r⟩ := ul
        simp at h
    simp only [List.cons_append, dedupUpdate, he, Bool.false_eq_true, if_false,
      List.append_eq]
    rw [ih l2 hrest]
    cases hd : dedupUpdate b l2 with
    | none => simp
    | some ul => simp

/-- C1: when a stored alert shares (device_id, metric_type) with the
incoming alert and is in state active, add_alert updates that alert in
place (metric_value and description from the incoming alert, severity the
maximum of old and new under the order info < warning < critical <
emergency), returns it, and creates no new alert; consequently adding a
matching alert twice, the first stored as active, grows total_alerts by
exactly one. -/
theorem alertManager_dedup_spec (now now2 : Int) (s : AlertManagerState) (a b : Alert) :
    (∀ e, s.alerts.find? (fun x => isActiveMatch a x) = some e →
      totalAlerts (addAlert now s a).2 = totalAlerts s ∧
      (addAlert now s a).1.id = e.id ∧
      (addAlert now s a).1.deviceId = e.deviceId ∧
      (addAlert now s a).1.metricType = e.metricType ∧
      (addAlert now s a).1.metricValue = a.metricValue ∧
      (addAlert now s a).1.description = a.description ∧
      (addAlert now s a).1.severity.index = max e.severity.index a.severity.index ∧
      (addAlert now s a).1.state = e.state ∧
      (∃ pre post, s.alerts = pre ++ e :: post ∧
        (∀ x ∈ pre, isActiveMatch a x = false) ∧
        (addAlert now s a).2.alerts = pre ++ (addAlert now s a).1 :: post)) ∧
    ((∀ x ∈ s.alerts, isActiveMatch a x = false) →
     (∀ x ∈ s.alerts, x.id ≠ a.id) →
     isSuppressed now s a = false →
     a.state = AlertState.active →
     b.deviceId = a.deviceId → b.metricType = a.metricType →
     totalAlerts (addAlert now2 (addAlert now s a).2 b).2 = totalAlerts s + 1) := by
  constructor
  · intro e hfind
    obtain ⟨pre, post, hl, hpre, hd⟩ := dedupUpdate_of_find a s.alerts e hfind
    have key : addAlert now s a =
        (escalate e a, { s with alerts := pre ++ escalate e a :: post }) := by
      cases hs : isSuppressed now s a with
      | false => simp [addAlert, hs, hd]
      | true => simp [addAlert, hs, dedupUpdate_setState, hd]
    rw [key]
    refine ⟨?_, rfl, rfl, rfl, rfl, rfl, by simp [escalate, sevMax_index], rfl,
      pre, post, hl, hpre, rfl⟩
    simp [totalAlerts, hl]
  · intro hno hfresh hsup hact hdev hmt
    have hd1 : dedupUpdate a s.alerts = none :=
      (dedupUpdate_eq_none_iff a s.alerts).mpr hno
    have key1 : addAlert now s a = (a, { s with alerts := s.alerts ++ [a] }) := by
      simp [addAlert, hsup, hd1, dictInsert_fresh a s.alerts hfresh]
    rw [key1]
    have hno_b : ∀ x ∈ s.alerts, isActiveMatch b x = false := fun x hx => by
      rw [isActiveMatch_congr a b x hdev hmt]
      exact hno x hx
    have hd1b : dedupUpdate b s.alerts = none :=
      (dedupUpdate_eq_none_iff b s.alerts).mpr hno_b
    have hmatch : isActiveMatch b a = true := by
      simp [isActiveMatch, hdev, hmt, hact]
    have htail : dedupUpdate b [a] = some (escalate a b, [escalate a b]) := by
      simp [dedupUpdate, hmatch]
    have happ : dedupUpdate b (s.alerts ++ [a]) =
        some (escalate a b, s.alerts ++ [escalate a b]) := by
      rw [dedupUpdate_append_of_none b s.alerts [a] hd1b, htail]
      rfl
    cases hs2 : isSuppressed now2 { s with alerts := s.alerts ++ [a] } b with
    | false => simp [addAlert, hs2, happ, totalAlerts]
    | true =>
      have happ' : dedupUpdate { b with state := AlertState.suppressed }
          (s.alerts ++ [a]) = some (escalate a b, s.alerts ++ [escalate a b]) := by
        rw [dedupUpdate_setState, happ]
      simp [addAlert, hs2, happ', totalAlerts]

/-- Witness for C1: two matching adds on a fresh manager grow
total_alerts by exactly one, and the second add returns the first alert
updated in place. -/
theorem alertManager_dedup_spec_witness :
    totalAlerts (addAlert 0 (addAlert 0 wManagerState wAlertA).2 wAlertB).2 =
      totalAlerts wManagerState + 1 ∧
    totalAlerts (addAlert 0 (addAlert 0 wManagerState wAlertA).2 wAlertB).2 =
      totalAlerts (addAlert 0 wManagerState wAlertA).2 := by
  constructor
  · exact (alertManager_dedup_spec 0 0 wManagerState wAlertA wAlertB).2
      (by decide) (by decide) (by decide) (by decide) (by decide) (by decide)
  · exact ((alertManager_dedup_spec 0 0 (addAlert 0 wManagerState wAlertA).2
      wAlertB wAlertB).1 wAlertA (by decide)).1

theorem lookupAlert_id (s : AlertManagerState) (i : String) (a : Alert)
    (h : lookupAlert s i = some a) : a.id = i := by
  have := List.find?_some h
  simpa using this

theorem find?_id_map_update (i : String) (x : Alert) (hx : x.id ≠ i) :
    ∀ (l : List Alert) (a : Alert), l.find? (fun e => e.id = i) = some a →
      (l.map (fun e => if e.id = x.id then x else e)).find?
        (fun e => e.id = i) = some a := by
  intro l
  induction l with
  | nil => intro a h; simp at h
  | cons e rest ih =>
    intro a h
    by_cases he : e.id = i
    · rw [List.find?_cons_of_pos _ (by simpa using he)] at h
      have hae : e = a := by injection h
      have hne : ¬ e.id = x.id := by
        intro hc
        exact hx (hc.symm.trans he)
      simp only [List.map_cons, hne, if_false]
      rw [List.find?_cons_of_pos _ (by simpa using he), hae]
    · rw [List.find?_cons_of_neg _ (by simpa using he)] at h
      simp only [List.map_cons]
      by_cases hex : e.id = x.id
      · simp only [hex, if_true]
        rw [List.find?_cons_of_neg _ (by simpa using hx)]
        exact ih a h
      · simp only [hex, if_false]
        rw [List.find?_cons_of_neg _ (by simpa using he)]
        exact ih a h

theorem find?_id_update_self (i : String) (a a' : Alert) (ha : a'.id = a.id) :
    ∀ (l : List Alert), l.find? (fun e => e.id = i) = some a →
      (l.map (fun e => if e.id = a'.id then a' else e)).find?
        (fun e => e.id = i) = some a' := by
  intro l
  induction l with
  | nil => intro h; simp at h
  | cons e rest ih =>
    intro h
    by_cases he : e.id = i
    · rw [List.find?_cons_of_pos _ (by simpa using he)] at h
      cases h
      simp only [List.map_cons, ha, if_true]
      exact List.find?_cons_of_pos _ (by simp [ha, he])
    · rw [List.find?_cons_of_neg _ (by simpa using he)] at h
      have hai : a.id = i := by
        have := List.find?_some h
        simpa using this
      have hea : ¬ e.id = a'.id := by
        rw [ha, hai]
        exact he
      simp only [List.map_cons, hea, if_false]
      rw [List.find?_cons_of_neg _ (by simpa using he)]
      exact ih h

theorem find?_id_dedupUpdate_preserved (b : Alert) (i : String) (a : Alert)
    (hna : isActiveMatch b a = false) :
    ∀ l u l', dedupUpdate b l = some (u, l') →
      l.find? (fun e => e.id = i) = some a →
      l'.find? (fun e => e.id = i) = some a := by
  intro l
  induction l with
  | nil => intro u l' h _; simp [dedupUpdate] at h
  | cons x rest ih =>
    intro u l' h hf
    cases hm : isActiveMatch b x with
    | true =>
      simp only [dedupUpdate, hm, if_true, Option.some.injEq, Prod.mk.injEq] at h
      obtain ⟨hu, hl⟩ := h
      subst hl
      by_cases hx : x.id = i
      · rw [List.find?_cons_of_pos _ (by simpa using hx)] at hf
        cases hf
        rw [hm] at hna
        cases hna
      · rw [List.find?_cons_of_neg _ (by simpa using hx)] at hf
        have hesc : ¬ (escalate x b).id = i := by simpa [escalate] using hx
        rw [List.find?_cons_of_neg _ (by simpa using hesc)]
        exact hf
    | false =>
      simp only [dedupUpdate, hm, Bool.false_eq_true, if_false] at h
      cases hd : dedupUpdate b rest with
      | none => rw [hd] at h; exact absurd h (by simp)
      | some ul =>
        rw [hd] at h
        obtain ⟨u0, rest'⟩ := ul
        simp only [Option.some.injEq, Prod.mk.injEq] at h
        obtain ⟨hu, hl⟩ := h
        subst hl
        by_cases hx : x.id = i
        · rw [List.find?_cons_of_pos _ (by simpa using hx)] at hf
          rw [List.find?_cons_of_pos _ (by simpa using hx)]
          exact hf
        · rw [List.find?_cons_of_neg _ (by simpa using hx)] at hf
          rw [List.find?_cons_of_neg _ (by simpa using hx)]
          exact ih u0 rest' hd hf

theorem find?_id_dictInsert (b : Alert) (i : String) (hb : b.id ≠ i) :
    ∀ (l : List Alert), (dictInsert l b).find? (fun e => e.id = i) =
      l.find? (fun e => e.id = i) := by
  intro l
  induction l with
  | nil => simp [dictInsert, hb]
  | cons e rest ih =>
    by_cases he : e.id = b.id
    · simp only [dictInsert, he, if_true]
      have hei : ¬ e.id = i := by rw [he]; exact hb
      rw [List.find?_cons_of_neg _ (by simpa using hb),
        List.find?_cons_of_neg _ (by simpa using hei)]
    · simp only [dictInsert, he, if_false]
      by_cases hei : e.id = i
      · rw [List.find?_cons_of_pos _ (by simpa using hei),
          List.find?_cons_of_pos _ (by simpa using hei)]
      · rw [List.find?_cons_of_neg _ (by simpa using hei),
          List.find?_cons_of_neg _ (by simpa using hei), ih]

theorem lookupAlert_acknowledge_resolved (now : Int) (s : AlertManagerState)
    (j who i : String) (a : Alert)
    (h : lookupAlert s i = some a) (ha : a.state = AlertState.resolved) :
    lookupAlert (acknowledge now s j who).2 i = some a := by
  cases hc : lookupAlert s j with
  | none => simp only [acknowledge, hc]; exact h
  | some c =>
    by_cases hcs : c.state = AlertState.active
    · by_cases hji : j = i
      · subst hji
        rw [h] at hc
        injection hc with hc'
        rw [← hc', ha] at hcs
        cases hcs
      · simp only [acknowledge, hc, hcs, if_true]
        have hcid : c.id = j := lookupAlert_id s j c hc
        unfold lookupAlert at h
        unfold lookupAlert updateAlertEntry
        exact find?_id_map_update i _ (by simpa [hcid] using fun hq => hji hq)
          s.alerts a h
    · simp only [acknowledge, hc, hcs, if_false]
      exact h

theorem lookupAlert_resolve_resolved (now : Int) (s : AlertManagerState)
    (j i : String) (a : Alert)
    (h : lookupAlert s i = some a) (ha : a.state = AlertState.resolved) :
    lookupAlert (resolve now s j).2 i = some a := by
  cases hc : lookupAlert s j with
  | none => simp only [resolve, hc]; exact h
  | some c =>
    by_cases hcs : c.state = AlertState.active ∨ c.state = AlertState.acknowledged
    · by_cases hji : j = i
      · subst hji
        rw [h] at hc
        injection hc with hc'
        rw [← hc', ha] at hcs
        rcases hcs with hx | hx <;> cases hx
      · simp only [resolve, hc, hcs, if_true]
        have hcid : c.id = j := lookupAlert_id s j c hc
        unfold lookupAlert at h
        unfold lookupAlert updateAlertEntry
        exact find?_id_map_update i _ (by simpa [hcid] using fun hq => hji hq)
          s.alerts a h
    · simp only [resolve, hc, hcs, if_false]
      exact h

theorem lookupAlert_addAlert_resolved (now : Int) (s : AlertManagerState)
    (b : Alert) (i : String) (a : Alert)
    (h : lookupAlert s i = some a) (ha : a.state = AlertState.resolved)
    (hb : b.id ≠ i) :
    lookupAlert (addAlert now s b).2 i = some a := by
  have hna : isActiveMatch b a = false := by
    simp [isActiveMatch, ha]
  cases hs : isSuppressed now s b with
  | false =>
    cases hd : dedupUpdate b s.alerts with
    | none =>
      have key : addAlert now s b = (b, { s with alerts := dictInsert s.alerts b }) := by
        simp [addAlert, hs, hd]
      rw [key]
      unfold lookupAlert at h ⊢
      exact (find?_id_dictInsert b i hb s.alerts).trans h
    | some ul =>
      obtain ⟨u, l'⟩ := ul
      have key : addAlert now s b = (u, { s with alerts := l' }) := by
        simp [addAlert, hs, hd]
      rw [key]
      unfold lookupAlert at h ⊢
      exact find?_id_dedupUpdate_preserved b i a hna s.alerts u l' hd h
  | true =>
    cases hd : dedupUpdate b s.alerts with
    | none =>
      have hd' : dedupUpdate { b with state := AlertState.suppressed } s.alerts = none := by
        rw [dedupUpdate_setState, hd]
      have key : addAlert now s b =
          ({ b with state := AlertState.suppressed },
           { s with alerts := dictInsert s.alerts { b with state := AlertState.suppressed } }) := by
        simp [addAlert, hs, hd']
      rw [key]
      unfold lookupAlert at h ⊢
      exact (find?_id_dictInsert { b with state := AlertState.suppressed } i hb s.alerts).trans h
    | some ul =>
      obtain ⟨u, l'⟩ := ul
      have hd' : dedupUpdate { b with state := AlertState.suppressed } s.alerts = some (u, l') := by
        rw [dedupUpdate_setState, hd]
      have key : addAlert now s b = (u, { s with alerts := l' }) := by
        simp [addAlert, hs, hd']
      rw [key]
      unfold lookupAlert at h ⊢
      exact find?_id_dedupUpdate_preserved { b with state := AlertState.suppressed } i a
        (by rw [isActiveMatch_setState]; exact hna) s.alerts u l' hd' h

/-- C4: the alert state machine.  Acknowledge succeeds exactly on existing
active alerts and sets acknowledged_at/acknowledged_by; resolve succeeds
exactly from active or acknowledged and sets resolved_at; a second
acknowledge is a no-op returning none and leaving the state untouched;
and a resolved alert is terminal: acknowledge, resolve and add_alert
(with the incoming uuid fresh) never change its stored entry. -/
theorem alert_state_machine (now now2 : Int) (s : AlertManagerState)
    (i who who2 : String) :
    ((acknowledge now s i who).1.isSome ↔
      ∃ a, lookupAlert s i = some a ∧ a.state = AlertState.active) ∧
    (∀ a, lookupAlert s i = some a → a.state = AlertState.active →
      ∃ r, acknowledge now s i who =
          (some r, { s with alerts := updateAlertEntry s.alerts r }) ∧
        r.state = AlertState.acknowledged ∧ r.acknowledgedAt = some now ∧
        r.acknowledgedBy = some who ∧ r.id = a.id ∧
        lookupAlert (acknowledge now s i who).2 i = some r ∧
        acknowledge now2 (acknowledge now s i who).2 i who2 =
          (none, (acknowledge now s i who).2)) ∧
    ((resolve now s i).1.isSome ↔
      ∃ a, lookupAlert s i = some a ∧
        (a.state = AlertState.active ∨ a.state = AlertState.acknowledged)) ∧
    (∀ a, lookupAlert s i = some a →
      (a.state = AlertState.active ∨ a.state = AlertState.acknowledged) →
      ∃ r, (resolve now s i).1 = some r ∧ r.state = AlertState.resolved ∧
        r.resolvedAt = some now ∧ r.id = a.id ∧
        lookupAlert (resolve now s i).2 i = some r) ∧
    (∀ a, lookupAlert s i = some a → a.state = AlertState.resolved →
      (acknowledge now2 s i who2).1 = none ∧
      (resolve now2 s i).1 = none ∧
      (∀ j who3, lookupAlert (acknowledge now2 s j who3).2 i = some a) ∧
      (∀ j, lookupAlert (resolve now2 s j).2 i = some a) ∧
      (∀ b : Alert, b.id ≠ i → lookupAlert (addAlert now2 s b).2 i = some a)) := by
  refine ⟨?_, ?_, ?_, ?_, ?_⟩
  · cases hc : lookupAlert s i with
    | none => simp [acknowledge, hc]
    | some a =>
      by_cases has : a.state = AlertState.active
      · simp only [acknowledge, hc, has, if_true]
        simp only [Option.isSome_some, true_iff]
        exact ⟨a, rfl, has⟩
      · simp only [acknowledge, hc, has, if_false]
        simp only [Option.isSome_none, Bool.false_eq_true, false_iff]
        rintro ⟨a0, h0, hs0⟩
        injection h0 with h0'
        exact has (h0' ▸ hs0)
  · intro a h ha
    have key : acknowledge now s i who =
        (some (ackUpdate now who a),
         { s with alerts := updateAlertEntry s.alerts (ackUpdate now who a) }) := by
      simp [acknowledge, ackUpdate, h, ha]
    have hl1 : lookupAlert (acknowledge now s i who).2 i =
        some (ackUpdate now who a) := by
      rw [key]
      unfold lookupAlert at h
      unfold lookupAlert updateAlertEntry
      exact find?_id_update_self i a (ackUpdate now who a) rfl s.alerts h
    refine ⟨_, key, rfl, rfl, rfl, rfl, hl1, ?_⟩
    obtain ⟨st1, hst1⟩ : ∃ st1, (acknowledge now s i who).2 = st1 := ⟨_, rfl⟩
    rw [hst1] at hl1 ⊢
    simp [acknowledge, ackUpdate, hl1]
  · cases hc : lookupAlert s i with
    | none => simp [resolve, hc]
    | some a =>
      by_cases has : a.state = AlertState.active ∨ a.state = AlertState.acknowledged
      · simp only [resolve, hc, has, if_true]
        simp only [Option.isSome_some, true_iff]
        exact ⟨a, rfl, has⟩
      · simp only [resolve, hc, has, if_false]
        simp only [Option.isSome_none, Bool.false_eq_true, false_iff]
        rintro ⟨a0, h0, hs0⟩
        injection h0 with h0'
        exact has (h0' ▸ hs0)
  · intro a h ha
    have key : resolve now s i =
        (some (resUpdate now a),
         { s with alerts := updateAlertEntry s.alerts (resUpdate now a) }) := by
      simp [resolve, resUpdate, h, ha]
    refine ⟨resUpdate now a, by rw [key], rfl, rfl, rfl, ?_⟩
    rw [key]
    unfold lookupAlert at h
    unfold lookupAlert updateAlertEntry
    exact find?_id_update_self i a (resUpdate now a) rfl s.alerts h
  · intro a h ha
    refine ⟨?_, ?_, ?_, ?_, ?_⟩
    · have : a.state ≠ AlertState.active := by rw [ha]; intro hx; cases hx
      simp [acknowledge, h, this]
    · have : ¬ (a.state = AlertState.active ∨ a.state = AlertState.acknowledged) := by
        rw [ha]
        rintro (hx | hx) <;> cases hx
      simp [resolve, h, this]
    · intro j who3
      exact lookupAlert_acknowledge_resolved now2 s j who3 i a h ha
    · intro j
      exact lookupAlert_resolve_resolved now2 s j i a h ha
    · intro b hb
      exact lookupAlert_addAlert_resolved now2 s b i a h ha hb

/-- Witness for C4 at a concrete state: a successful acknowledge of the
active alert, and preservation of the resolved alert under resolve. -/
theorem alert_state_machine_witness :
    (∃ r, acknowledge 5 wManagerState2 "a1" "op" =
        (some r, { wManagerState2 with
            alerts := updateAlertEntry wManagerState2.alerts r }) ∧
      r.state = AlertState.acknowledged ∧ r.acknowledgedAt = some 5 ∧
      r.acknowledgedBy = some "op" ∧ r.id = wAlertA.id ∧
      lookupAlert (acknowledge 5 wManagerState2 "a1" "op").2 "a1" = some r ∧
      acknowledge 7 (acknowledge 5 wManagerState2 "a1" "op").2 "a1" "op2" =
        (none, (acknowledge 5 wManagerState2 "a1" "op").2)) ∧
    lookupAlert (resolve 7 wManagerState2 "a1").2 "r1" = some wAlertR := by
  constructor
  · exact (alert_state_machine 5 7 wManagerState2 "a1" "op" "op2").2.1
      wAlertA (by decide) (by decide)
  · exact ((alert_state_machine 5 7 wManagerState2 "r1" "op" "op2").2.2.2.2
      wAlertR (by decide) (by decide)).2.2.2.1 "a1"

/-- C10: suppression marks the incoming alert but runs before dedup, and
dedup only matches active entries.  An incoming alert that is suppressed
and matches an existing active entry updates that entry and is itself
discarded (the id set is unchanged); conversely, when no active entry
matches, the incoming alert is stored as a separate entry (suppressed if
a rule matched) and total_alerts grows by one. -/
theorem suppression_then_dedup (now : Int) (s : AlertManagerState) (a : Alert) :
    (∀ e, isSuppressed now s a = true →
      s.alerts.find? (fun x => isActiveMatch a x) = some e →
      totalAlerts (addAlert now s a).2 = totalAlerts s ∧
      (addAlert now s a).1.id = e.id ∧
      (addAlert now s a).2.alerts.map Alert.id = s.alerts.map Alert.id ∧
      ((∀ x ∈ s.alerts, x.id ≠ a.id) →
        lookupAlert (addAlert now s a).2 a.id = none)) ∧
    ((∀ x ∈ s.alerts, isActiveMatch a x = false) →
     (∀ x ∈ s.alerts, x.id ≠ a.id) →
      totalAlerts (addAlert now s a).2 = totalAlerts s + 1 ∧
      ∃ r, lookupAlert (addAlert now s a).2 a.id = some r ∧
        r.deviceId = a.deviceId ∧ r.metricType = a.metricType ∧
        r.severity = a.severity ∧ r.metricValue = a.metricValue ∧
        r.state = (if isSuppressed now s a then AlertState.suppressed else a.state)) := by
  constructor
  · intro e hsup hfind
    obtain ⟨pre, post, hl, hpre, hd⟩ := dedupUpdate_of_find a s.alerts e hfind
    have key : addAlert now s a =
        (escalate e a, { s with alerts := pre ++ escalate e a :: post }) := by
      simp [addAlert, hsup, dedupUpdate_setState, hd]
    rw [key]
    refine ⟨by simp [totalAlerts, hl], rfl, ?_, ?_⟩
    · rw [hl]
      simp [escalate]
    · intro hfresh
      unfold lookupAlert
      refine List.find?_eq_none.mpr ?_
      intro x hx
      simp only [decide_eq_true_eq]
      rcases List.mem_append.mp hx with hx1 | hx2
      · exact hfresh x (by rw [hl]; exact List.mem_append_left _ hx1)
      · rcases List.mem_cons.mp hx2 with rfl | hx3
        · have : e.id ≠ a.id :=
            hfresh e (by rw [hl]; exact List.mem_append_right _ (by simp))
          simpa [escalate] using this
        · exact hfresh x (by rw [hl]; exact List.mem_append_right _ (by simp [hx3]))
  · intro hno hfresh
    cases hs : isSuppressed now s a with
    | false =>
      have hd : dedupUpdate a s.alerts = none :=
        (dedupUpdate_eq_none_iff a s.alerts).mpr hno
      have key : addAlert now s a = (a, { s with alerts := s.alerts ++ [a] }) := by
        simp [addAlert, hs, hd, dictInsert_fresh a s.alerts hfresh]
      rw [key]
      refine ⟨by simp [totalAlerts], a, ?_, rfl, rfl, rfl, rfl, by simp [hs]⟩
      unfold lookupAlert
      rw [List.find?_append]
      have h1 : s.alerts.find? (fun e => e.id = a.id) = none :=
        List.find?_eq_none.mpr (fun x hx => by
          simp only [decide_eq_true_eq]
          exact hfresh x hx)
      rw [h1]
      simp
    | true =>
      have hd : dedupUpdate { a with state := AlertState.suppressed } s.alerts = none := by
        rw [dedupUpdate_setState]
        exact (dedupUpdate_eq_none_iff a s.alerts).mpr hno
      have hfresh' : ∀ x ∈ s.alerts, x.id ≠ ({ a with state := AlertState.suppressed } : Alert).id :=
        fun x hx => hfresh x hx
      have key : addAlert now s a =
          ({ a with state := AlertState.suppressed },
           { s with alerts := s.alerts ++ [{ a with state := AlertState.suppressed }] }) := by
        simp [addAlert, hs, hd,
          dictInsert_fresh { a with state := AlertState.suppressed } s.alerts hfresh']
      rw [key]
      refine ⟨by simp [totalAlerts], { a with state := AlertState.suppressed },
        ?_, rfl, rfl, rfl, rfl, by simp [hs]⟩
      unfold lookupAlert
      rw [List.find?_append]
      have h1 : s.alerts.find? (fun e => e.id = a.id) = none :=
        List.find?_eq_none.mpr (fun x hx => by
          simp only [decide_eq_true_eq]
          exact hfresh x hx)
      rw [h1]
      simp

/-- Witness for C10: a suppressed incoming alert is absorbed by the
active duplicate (total unchanged, incoming discarded), and a resolved
duplicate does not absorb (total grows by one). -/
theorem suppression_then_dedup_witness :
    (totalAlerts (addAlert 0 wManagerState3 wAlertB).2 = totalAlerts wManagerState3 ∧
      lookupAlert (addAlert 0 wManagerState3 wAlertB).2 wAlertB.id = none) ∧
    totalAlerts (addAlert 0 wManagerState4 wAlertB).2 = totalAlerts wManagerState4 + 1 := by
  constructor
  · have h := (suppression_then_dedup 0 wManagerState3 wAlertB).1 wAlertA
      (by decide) (by decide)
    exact ⟨h.1, h.2.2.2 (by decide)⟩
  · exact ((suppression_then_dedup 0 wManagerState4 wAlertB).2
      (by decide) (by decide)).1

theorem assocGet_assocSet_self {α : Type} :
    ∀ (l : List (String × α)) (k : String) (v : α),
      assocGet (assocSet l k v) k = some v := by
  intro l
  induction l with
  | nil => intro k v; simp [assocSet, assocGet, List.find?]
  | cons p rest ih =>
    intro k v
    by_cases hp : p.1 = k
    · simp [assocSet, hp, assocGet, List.find?]
    · simp only [assocSet, hp, if_false]
      simp only [assocGet] at ih ⊢
      rw [List.find?_cons_of_neg _ (by simpa using hp)]
      exact ih k v

theorem processMetrics_single_history (s : HealthMonitorState) (m : Metric) :
    assocGetD (processMetrics s [m]).2.metricHistory (seriesKey m) [] =
      (if (assocGetD s.metricHistory (seriesKey m) [] ++ [m]).length > s.maxHistory
       then pySliceLast (assocGetD s.metricHistory (seriesKey m) [] ++ [m]) s.maxHistory
       else assocGetD s.metricHistory (seriesKey m) [] ++ [m]) := by
  cases hch : checkThreshold s.thresholds m with
  | none =>
    simp [processMetrics, processOne, hch, assocGetD, assocGet_assocSet_self]
  | some a =>
    simp [processMetrics, processOne, hch, assocGetD, assocGet_assocSet_self]

theorem processMetrics_single_len (s : HealthMonitorState) (m : Metric)
    (hmax : 0 < s.maxHistory) :
    (assocGetD (processMetrics s [m]).2.metricHistory (seriesKey m) []).length =
      min ((assocGetD s.metricHistory (seriesKey m) []).length + 1) s.maxHistory := by
  rw [processMetrics_single_history]
  by_cases h : (assocGetD s.metricHistory (seriesKey m) [] ++ [m]).length > s.maxHistory
  · simp only [h, if_true]
    unfold pySliceLast
    have hn : ¬ s.maxHistory = 0 := by omega
    simp only [hn, if_false]
    rw [List.length_drop]
    simp only [List.length_append, List.length_singleton] at h ⊢
    omega
  · simp only [h, if_false]
    simp only [List.length_append, List.length_singleton] at h ⊢
    omega

/-- C9 (amended): processing one metric appends it to its series and
trims to max_history, so the new series length is
min (old + 1) max_history; it grows by exactly one only while the series
is below the cap. -/
theorem process_metrics_history_growth (s : HealthMonitorState) (m : Metric)
    (hmax : 0 < s.maxHistory) :
    (assocGetD (processMetrics s [m]).2.metricHistory (seriesKey m) []).length =
      min ((assocGetD s.metricHistory (seriesKey m) []).length + 1) s.maxHistory ∧
    ((assocGetD s.metricHistory (seriesKey m) []).length + 1 ≤ s.maxHistory →
      assocGetD (processMetrics s [m]).2.metricHistory (seriesKey m) [] =
        assocGetD s.metricHistory (seriesKey m) [] ++ [m]) := by
  refine ⟨processMetrics_single_len s m hmax, ?_⟩
  intro hle
  rw [processMetrics_single_history]
  have hno : ¬ (assocGetD s.metricHistory (seriesKey m) [] ++ [m]).length > s.maxHistory := by
    simp only [List.length_append, List.length_singleton]
    omega
  rw [if_neg hno]

/-- Witness for C9: on a fresh monitor, processing one metric gives the
series length 1 = 0 + 1. -/
theorem process_metrics_history_growth_witness :
    (assocGetD (processMetrics (HealthMonitor.init none) [wMetricLat]).2.metricHistory
        (seriesKey wMetricLat) []).length = 1 ∧
    assocGetD (processMetrics (HealthMonitor.init none) [wMetricLat]).2.metricHistory
        (seriesKey wMetricLat) [] =
      assocGetD (HealthMonitor.init none).metricHistory (seriesKey wMetricLat) [] ++
        [wMetricLat] := by
  have h := process_metrics_history_growth (HealthMonitor.init none) wMetricLat
    (by decide)
  have h0 : (assocGetD (HealthMonitor.init none).metricHistory
      (seriesKey wMetricLat) []).length = 0 := rfl
  refine ⟨?_, h.2 (by decide)⟩
  rw [h.1, h0]
  rfl

/-- Counterexample to C9 as stated: with the series at max_history =
1000, processing one more metric leaves the length at 1000, not 1001. -/
theorem history_cap_cex :
    (assocGetD wHealthFull.metricHistory (seriesKey wMetricLat) []).length = 1000 ∧
    (assocGetD (processMetrics wHealthFull [wMetricLat]).2.metricHistory
        (seriesKey wMetricLat) []).length = 1000 := by
  have h1 : assocGetD wHealthFull.metricHistory (seriesKey wMetricLat) [] =
      List.replicate 1000 wMetricLat := rfl
  constructor
  · rw [h1, List.length_replicate]
  · rw [processMetrics_single_len wHealthFull wMetricLat (by decide), h1,
      List.length_replicate]
    rfl

theorem thresholdHit_none_iff (t : MetricThreshold) (v : ℚ) :
    thresholdHit t v = none ↔
      v < t.criticalThreshold ∧ v < t.warningThreshold ∧
      ¬ ∃ e, t.emergencyThreshold = some e ∧ e ≠ 0 ∧ e ≤ v := by
  cases he : t.emergencyThreshold with
  | none =>
    simp only [thresholdHit, he]
    split_ifs with h1 h2
    · constructor
      · intro h; cases h
      · rintro ⟨hc, -, -⟩
        exact absurd h1 (not_le.mpr hc)
    · constructor
      · intro h; cases h
      · rintro ⟨-, hw, -⟩
        exact absurd h2 (not_le.mpr hw)
    · constructor
      · intro _
        refine ⟨not_le.mp h1, not_le.mp h2, ?_⟩
        rintro ⟨e, hee, -, -⟩
        cases hee
      · intro _; rfl
  | some e =>
    simp only [thresholdHit, he]
    split_ifs with h0 h1 h2
    · constructor
      · intro h; cases h
      · rintro ⟨-, -, hne⟩
        exact hne ⟨e, rfl, h0.1, h0.2⟩
    · constructor
      · intro h; cases h
      · rintro ⟨hc, -, -⟩
        exact absurd h1 (not_le.mpr hc)
    · constructor
      · intro h; cases h
      · rintro ⟨-, hw, -⟩
        exact absurd h2 (not_le.mpr hw)
    · constructor
      · intro _
        refine ⟨not_le.mp h1, not_le.mp h2, ?_⟩
        rintro ⟨e', hee, he0, hev⟩
        injection hee with hee'
        exact h0 ⟨hee' ▸ he0, hee' ▸ hev⟩
      · intro _; rfl

theorem thresholdHit_some_spec (t : MetricThreshold) (v : ℚ) (sev : AlertSeverity)
    (thr : ℚ) (h : thresholdHit t v = some (sev, thr)) :
    (sev = AlertSeverity.emergency ∧ t.emergencyThreshold = some thr ∧
      thr ≠ 0 ∧ thr ≤ v) ∨
    (sev = AlertSeverity.critical ∧ thr = t.criticalThreshold ∧
      t.criticalThreshold ≤ v ∧
      ¬ ∃ e, t.emergencyThreshold = some e ∧ e ≠ 0 ∧ e ≤ v) ∨
    (sev = AlertSeverity.warning ∧ thr = t.warningThreshold ∧
      t.warningThreshold ≤ v ∧ v < t.criticalThreshold ∧
      ¬ ∃ e, t.emergencyThreshold = some e ∧ e ≠ 0 ∧ e ≤ v) := by
  cases he : t.emergencyThreshold with
  | none =>
    simp only [thresholdHit, he] at h
    by_cases h1 : v ≥ t.criticalThreshold
    · rw [if_pos h1] at h
      injection h with h'
      injection h' with hs ht'
      refine Or.inr (Or.inl ⟨hs.symm, ht'.symm, h1, ?_⟩)
      rintro ⟨e, hee, -, -⟩
      cases hee
    · rw [if_neg h1] at h
      by_cases h2 : v ≥ t.warningThreshold
      · rw [if_pos h2] at h
        injection h with h'
        injection h' with hs ht'
        refine Or.inr (Or.inr ⟨hs.symm, ht'.symm, h2, not_le.mp h1, ?_⟩)
        rintro ⟨e, hee, -, -⟩
        cases hee
      · rw [if_neg h2] at h
        cases h
  | some e =>
    simp only [thresholdHit, he] at h
    by_cases h0 : e ≠ 0 ∧ v ≥ e
    · rw [if_pos h0] at h
      injection h with h'
      injection h' with hs ht'
      subst ht'
      exact Or.inl ⟨hs.symm, rfl, h0.1, h0.2⟩
    · rw [if_neg h0] at h
      by_cases h1 : v ≥ t.criticalThreshold
      · rw [if_pos h1] at h
        injection h with h'
        injection h' with hs ht'
        refine Or.inr (Or.inl ⟨hs.symm, ht'.symm, h1, ?_⟩)
        rintro ⟨e', hee, he0, hev⟩
        injection hee with hee'
        exact h0 ⟨by rw [hee']; exact he0, by rw [hee']; exact hev⟩
      · rw [if_neg h1] at h
        by_cases h2 : v ≥ t.warningThreshold
        · rw [if_pos h2] at h
          injection h with h'
          injection h' with hs ht'
          refine Or.inr (Or.inr ⟨hs.symm, ht'.symm, h2, not_le.mp h1, ?_⟩)
          rintro ⟨e', hee, he0, hev⟩
          injection hee with hee'
          exact h0 ⟨by rw [hee']; exact he0, by rw [hee']; exact hev⟩
        · rw [if_neg h2] at h
          cases h

/-- C2 (amended): per metric with a configured threshold, evaluation
takes the first satisfied tier in the order emergency, critical, warning,
each a >= comparison, except that the emergency tier is considered only
when emergency_threshold is set and nonzero (python truthiness of the
float); the single produced alert carries that tier severity and
threshold_value, and a processed metric yields at most one alert. -/
theorem healthMonitor_threshold_tiers (ts : List MetricThreshold) (m : Metric)
    (t : MetricThreshold) (ht : getThreshold ts m.metricType = some t) :
    (checkThreshold ts m = none ↔
      m.value < t.criticalThreshold ∧ m.value < t.warningThreshold ∧
      ¬ ∃ e, t.emergencyThreshold = some e ∧ e ≠ 0 ∧ e ≤ m.value) ∧
    (∀ a, checkThreshold ts m = some a →
      a.metricType = some m.metricType ∧ a.metricValue = some m.value ∧
      a.state = AlertState.active ∧ a.source = "health_monitor" ∧
      ((a.severity = AlertSeverity.emergency ∧
          a.thresholdValue = t.emergencyThreshold ∧
          ∃ e, t.emergencyThreshold = some e ∧ e ≠ 0 ∧ e ≤ m.value) ∨
       (a.severity = AlertSeverity.critical ∧
          a.thresholdValue = some t.criticalThreshold ∧
          t.criticalThreshold ≤ m.value ∧
          ¬ ∃ e, t.emergencyThreshold = some e ∧ e ≠ 0 ∧ e ≤ m.value) ∨
       (a.severity = AlertSeverity.warning ∧
          a.thresholdValue = some t.warningThreshold ∧
          t.warningThreshold ≤ m.value ∧ m.value < t.criticalThreshold ∧
          ¬ ∃ e, t.emergencyThreshold = some e ∧ e ≠ 0 ∧ e ≤ m.value))) ∧
    (∀ s : HealthMonitorState, (processMetrics s [m]).1.length ≤ 1) := by
  refine ⟨?_, ?_, ?_⟩
  · cases hh : thresholdHit t m.value with
    | none =>
      have key : checkThreshold ts m = none := by
        simp [checkThreshold, ht, hh]
      rw [key]
      constructor
      · intro _
        exact (thresholdHit_none_iff t m.value).mp hh
      · intro _
        rfl
    | some p =>
      obtain ⟨sev, thr⟩ := p
      have key : checkThreshold ts m ≠ none := by
        simp [checkThreshold, ht, hh]
      constructor
      · intro hn
        exact absurd hn key
      · intro hr
        exfalso
        have hx := (thresholdHit_none_iff t m.value).mpr hr
        rw [hh] at hx
        cases hx
  · intro a ha
    cases hh : thresholdHit t m.value with
    | none =>
      exfalso
      have hx : checkThreshold ts m = none := by simp [checkThreshold, ht, hh]
      rw [hx] at ha
      cases ha
    | some p =>
      obtain ⟨sev, thr⟩ := p
      simp only [checkThreshold, ht, hh] at ha
      injection ha with ha'
      subst ha'
      refine ⟨rfl, rfl, rfl, rfl, ?_⟩
      rcases thresholdHit_some_spec t m.value sev thr hh with
        ⟨hs, hemer, h0, hv⟩ | ⟨hs, htc, hcv, hne⟩ | ⟨hs, htw, hwv, hvc, hne⟩
      · exact Or.inl ⟨hs, hemer.symm, thr, hemer, h0, hv⟩
      · exact Or.inr (Or.inl ⟨hs, by rw [htc], hcv, hne⟩)
      · exact Or.inr (Or.inr ⟨hs, by rw [htw], hwv, hvc, hne⟩)
  · intro s
    cases hch : checkThreshold s.thresholds m with
    | none => simp [processMetrics, processOne, hch]
    | some a => simp [processMetrics, processOne, hch]

/-- Witness for C2: at cpu value 90 against the default thresholds an
alert is produced (value exceeds warning and critical), and processing
the metric yields at most one alert. -/
theorem healthMonitor_threshold_tiers_witness :
    checkThreshold DEFAULT_THRESHOLDS wMetricCpu90 ≠ none ∧
    (processMetrics (HealthMonitor.init none) [wMetricCpu90]).1.length ≤ 1 := by
  have h := healthMonitor_threshold_tiers DEFAULT_THRESHOLDS wMetricCpu90
    wCpuThreshold (by decide)
  constructor
  · intro hn
    have hx := h.1.mp hn
    exact absurd hx.1 (by decide)
  · exact h.2.2 (HealthMonitor.init none)

/-- Counterexample to C2 as stated: with emergency_threshold = 0.0 the
value 0 satisfies the emergency tier (0 >= 0), yet the produced alert is
critical with threshold_value -5, because python float truthiness skips
the zero emergency tier. -/
theorem healthMonitor_emergency_zero_cex :
    cexThreshold.emergencyThreshold = some 0 ∧
    (0 : ℚ) ≤ cexMetric.value ∧
    (checkThreshold [cexThreshold] cexMetric).map Alert.severity =
      some AlertSeverity.critical ∧
    (checkThreshold [cexThreshold] cexMetric).map Alert.thresholdValue =
      some (some (-5)) := by
  refine ⟨rfl, by decide, ?_, ?_⟩ <;> decide

theorem backupConfig_after_push (sha256 : String → String) (s1 : ConfigManagerState)
    (d t src2 host2 : String) (snap : ConfigSnapshot)
    (hgl : (assocGetD s1.snapshots d []).getLast? = some snap)
    (hh : snap.configHash = sha256 t) :
    backupConfig sha256 s1 d t src2 host2 = (snap, s1) := by
  simp [backupConfig, hgl, hh]

/-- C5: backing up the same config text twice for the same device is
idempotent: the second call returns the very snapshot of the first call
(same identifier) and leaves the store untouched; the decision compares
the hash of the text with the stored latest snapshot hash, which after
any backup of t equals sha256 t. -/
theorem assocGetD_assocSet_self {α : Type} (l : List (String × α)) (k : String)
    (v d0 : α) : assocGetD (assocSet l k v) k d0 = v := by
  rw [assocGetD, assocGet_assocSet_self]
  rfl

/-- C5: backing up the same config text twice for the same device is
idempotent: the second call returns the very snapshot of the first call
(same identifier) and leaves the store untouched; the decision compares
the hash of the text with the stored latest snapshot hash, which after
any backup of t equals sha256 t. -/
theorem configBackup_idempotent (sha256 : String → String) (s : ConfigManagerState)
    (d t src1 host1 src2 host2 : String) :
    (backupConfig sha256 (backupConfig sha256 s d t src1 host1).2 d t src2 host2).1 =
      (backupConfig sha256 s d t src1 host1).1 ∧
    (backupConfig sha256 (backupConfig sha256 s d t src1 host1).2 d t src2 host2).2 =
      (backupConfig sha256 s d t src1 host1).2 ∧
    totalSnapshots
        (backupConfig sha256 (backupConfig sha256 s d t src1 host1).2 d t src2 host2).2 =
      totalSnapshots (backupConfig sha256 s d t src1 host1).2 ∧
    (getLatest (backupConfig sha256 s d t src1 host1).2 d).map
        (fun sn => sn.configHash) = some (sha256 t) := by
  have hgl1 : ∃ snap,
      (assocGetD (backupConfig sha256 s d t src1 host1).2.snapshots d []).getLast? =
        some snap ∧ snap.configHash = sha256 t ∧
      (backupConfig sha256 s d t src1 host1).1 = snap := by
    cases hlast : (assocGetD s.snapshots d []).getLast? with
    | some last =>
      by_cases hh : last.configHash = sha256 t
      · refine ⟨last, ?_, hh, ?_⟩
        · have hs2 : (backupConfig sha256 s d t src1 host1).2 = s := by
            simp [backupConfig, hlast, hh]
          rw [hs2, hlast]
        · simp [backupConfig, hlast, hh]
      · have hsnaps : (backupConfig sha256 s d t src1 host1).2.snapshots =
            assocSet s.snapshots d
              (assocGetD s.snapshots d [] ++ [newSnapshot s d t (sha256 t) src1 host1]) := by
          simp [backupConfig, hlast, hh]
        have hfst : (backupConfig sha256 s d t src1 host1).1 =
            newSnapshot s d t (sha256 t) src1 host1 := by
          simp [backupConfig, hlast, hh]
        refine ⟨newSnapshot s d t (sha256 t) src1 host1, ?_, rfl, hfst⟩
        rw [hsnaps, assocGetD_assocSet_self]
        exact List.getLast?_concat _
    | none =>
      have hsnaps : (backupConfig sha256 s d t src1 host1).2.snapshots =
          assocSet s.snapshots d
            (assocGetD s.snapshots d [] ++ [newSnapshot s d t (sha256 t) src1 host1]) := by
        simp [backupConfig, hlast]
      have hfst : (backupConfig sha256 s d t src1 host1).1 =
          newSnapshot s d t (sha256 t) src1 host1 := by
        simp [backupConfig, hlast]
      refine ⟨newSnapshot s d t (sha256 t) src1 host1, ?_, rfl, hfst⟩
      rw [hsnaps, assocGetD_assocSet_self]
      exact List.getLast?_concat _
  obtain ⟨snap, hgl, hh, hr1⟩ := hgl1
  have key2 : backupConfig sha256 (backupConfig sha256 s d t src1 host1).2 d t src2 host2 =
      (snap, (backupConfig sha256 s d t src1 host1).2) :=
    backupConfig_after_push sha256 _ d t src2 host2 snap hgl hh
  refine ⟨by rw [key2, hr1], by rw [key2], by rw [key2], ?_⟩
  simp only [getLatest]
  rw [hgl]
  simp [hh]

theorem inMaintenance_set_history (s : AnomalyDetectorState)
    (h : List (String × List ℚ)) (now : Int) (d : String) :
    inMaintenance { s with history := h } now d = inMaintenance s now d := rfl

/-- C3: when the metric device is covered by an active maintenance
window, detect returns the empty list, records no anomaly, and still
appends the value to the per-series history (trimmed at max_history). -/
theorem anomaly_maintenance_gate (s : AnomalyDetectorState) (now : Int)
    (m : Metric) (w : MaintenanceWindow)
    (hw : w ∈ s.maintenanceWindows)
    (hact : w.start ≤ now ∧ now ≤ w.stop)
    (hcov : w.deviceIds = none ∨ ∃ ids, w.deviceIds = some ids ∧ m.deviceId ∈ ids) :
    (detect s now m).1 = [] ∧
    (detect s now m).2.anomalies = s.anomalies ∧
    (0 < s.maxHistory →
      (assocGetD (detect s now m).2.history
          (m.deviceId ++ ":" ++ m.metricType.value) []).length =
        min ((assocGetD s.history (m.deviceId ++ ":" ++ m.metricType.value) []).length + 1)
          s.maxHistory) ∧
    ((assocGetD s.history (m.deviceId ++ ":" ++ m.metricType.value) []).length + 1 ≤
        s.maxHistory →
      assocGetD (detect s now m).2.history (m.deviceId ++ ":" ++ m.metricType.value) [] =
        assocGetD s.history (m.deviceId ++ ":" ++ m.metricType.value) [] ++ [m.value]) := by
  have hin : inMaintenance s now m.deviceId = true := by
    unfold inMaintenance
    rw [List.any_eq_true]
    refine ⟨w, hw, ?_⟩
    rw [Bool.and_eq_true]
    constructor
    · unfold MaintenanceWindow.isActive
      rw [Bool.and_eq_true]
      exact ⟨decide_eq_true hact.1, decide_eq_true hact.2⟩
    · unfold MaintenanceWindow.coversDevice
      rcases hcov with h | ⟨ids, hids, hmem⟩
      · rw [h]
      · rw [hids]
        simp [hmem]
  have k1 : (detect s now m).1 = [] := by
    simp [detect, inMaintenance_set_history, hin]
  have k2 : (detect s now m).2.anomalies = s.anomalies := by
    simp [detect, inMaintenance_set_history, hin]
  have k3 : (detect s now m).2.history =
      assocSet s.history (m.deviceId ++ ":" ++ m.metricType.value)
        (if (assocGetD s.history (m.deviceId ++ ":" ++ m.metricType.value) [] ++
              [m.value]).length > s.maxHistory
         then pySliceLast (assocGetD s.history (m.deviceId ++ ":" ++ m.metricType.value) [] ++
              [m.value]) s.maxHistory
         else assocGetD s.history (m.deviceId ++ ":" ++ m.metricType.value) [] ++
              [m.value]) := by
    simp [detect, inMaintenance_set_history, hin]
  refine ⟨k1, k2, ?_, ?_⟩
  · intro hmax
    rw [k3, assocGetD_assocSet_self]
    by_cases hgt : (assocGetD s.history (m.deviceId ++ ":" ++ m.metricType.value) [] ++
        [m.value]).length > s.maxHistory
    · rw [if_pos hgt]
      unfold pySliceLast
      have hn : ¬ s.maxHistory = 0 := by omega
      rw [if_neg hn, List.length_drop]
      simp only [List.length_append, List.length_singleton] at hgt ⊢
      omega
    · rw [if_neg hgt]
      simp only [List.length_append, List.length_singleton] at hgt ⊢
      omega
  · intro hle
    rw [k3, assocGetD_assocSet_self]
    have hno : ¬ (assocGetD s.history (m.deviceId ++ ":" ++ m.metricType.value) [] ++
        [m.value]).length > s.maxHistory := by
      simp only [List.length_append, List.length_singleton]
      omega
    rw [if_neg hno]

/-- Witness for C3: under the active window for d1, the value 200 yields
no anomaly results while the series history reaches length 16. -/
theorem anomaly_maintenance_gate_witness :
    (detect wDetector15 0 wMetric200).1 = [] ∧
    (detect wDetector15 0 wMetric200).2.anomalies = wDetector15.anomalies ∧
    (assocGetD (detect wDetector15 0 wMetric200).2.history
        (wMetric200.deviceId ++ ":" ++ wMetric200.metricType.value) []).length = 16 := by
  have h := anomaly_maintenance_gate wDetector15 0 wMetric200 wWindow
    (by decide) (by decide) (Or.inr ⟨["d1"], rfl, by decide⟩)
  refine ⟨h.1, h.2.1, ?_⟩
  have hlen : (assocGetD wDetector15.history
      (wMetric200.deviceId ++ ":" ++ wMetric200.metricType.value) []).length = 15 := by
    decide
  rw [h.2.2.1 (by decide), hlen]
  rfl

theorem int_foldl_max_spec (ts : List Int) :
    ∀ init : Int,
      init ≤ ts.foldl max init ∧ (∀ x ∈ ts, x ≤ ts.foldl max init) ∧
      (ts.foldl max init = init ∨ ts.foldl max init ∈ ts) := by
  induction ts with
  | nil => intro init; simp
  | cons t ts ih =>
    intro init
    simp only [List.foldl_cons]
    obtain ⟨h1, h2, h3⟩ := ih (max init t)
    refine ⟨le_trans (le_max_left _ _) h1, ?_, ?_⟩
    · intro x hx
      rcases List.mem_cons.mp hx with rfl | hx'
      · exact le_trans (le_max_right _ _) h1
      · exact h2 x hx'
    · rcases h3 with h3 | h3
      · rcases max_choice init t with hm | hm
        · left
          rw [h3, hm]
        · right
          rw [h3, hm]
          simp
      · right
        exact List.mem_cons_of_mem _ h3

theorem int_foldl_min_spec (ts : List Int) :
    ∀ init : Int,
      ts.foldl min init ≤ init ∧ (∀ x ∈ ts, ts.foldl min init ≤ x) ∧
      (ts.foldl min init = init ∨ ts.foldl min init ∈ ts) := by
  induction ts with
  | nil => intro init; simp
  | cons t ts ih =>
    intro init
    simp only [List.foldl_cons]
    obtain ⟨h1, h2, h3⟩ := ih (min init t)
    refine ⟨le_trans h1 (min_le_left _ _), ?_, ?_⟩
    · intro x hx
      rcases List.mem_cons.mp hx with rfl | hx'
      · exact le_trans h1 (min_le_right _ _)
      · exact h2 x hx'
    · rcases h3 with h3 | h3
      · rcases min_choice init t with hm | hm
        · left
          rw [h3, hm]
        · right
          rw [h3, hm]
          simp
      · right
        exact List.mem_cons_of_mem _ h3

theorem maxTs_spec (a : AnomalyResult) (rest : List AnomalyResult) :
    (∀ b ∈ a :: rest, b.timestamp ≤ maxTs (a :: rest)) ∧
    (∃ b ∈ a :: rest, b.timestamp = maxTs (a :: rest)) := by
  have h := int_foldl_max_spec (rest.map (fun x => x.timestamp)) a.timestamp
  have hm : maxTs (a :: rest) =
      (rest.map (fun x => x.timestamp)).foldl max a.timestamp := by
    simp [maxTs]
  constructor
  · intro b hb
    rcases List.mem_cons.mp hb with rfl | hb'
    · rw [hm]
      exact h.1
    · rw [hm]
      exact h.2.1 _ (List.mem_map_of_mem _ hb')
  · rcases h.2.2 with he | he
    · exact ⟨a, by simp, by rw [hm, he]⟩
    · obtain ⟨b, hb, hbt⟩ := List.mem_map.mp he
      exact ⟨b, List.mem_cons_of_mem _ hb, by rw [hm, hbt]⟩

theorem minTs_spec (a : AnomalyResult) (rest : List AnomalyResult) :
    (∀ b ∈ a :: rest, minTs (a :: rest) ≤ b.timestamp) ∧
    (∃ b ∈ a :: rest, b.timestamp = minTs (a :: rest)) := by
  have h := int_foldl_min_spec (rest.map (fun x => x.timestamp)) a.timestamp
  have hm : minTs (a :: rest) =
      (rest.map (fun x => x.timestamp)).foldl min a.timestamp := by
    simp [minTs]
  constructor
  · intro b hb
    rcases List.mem_cons.mp hb with rfl | hb'
    · rw [hm]
      exact h.1
    · rw [hm]
      exact h.2.1 _ (List.mem_map_of_mem _ hb')
  · rcases h.2.2 with he | he
    · exact ⟨a, by simp, by rw [hm, he]⟩
    · obtain ⟨b, hb, hbt⟩ := List.mem_map.mp he
      exact ⟨b, List.mem_cons_of_mem _ hb, by rw [hm, hbt]⟩

theorem correlateGroupsFuel_spec (w : Int) :
    ∀ (n : Nat) (l : List AnomalyResult), l.length ≤ n →
      ∀ g ∈ correlateGroupsFuel w n l,
        ∃ a rest, g = a :: rest ∧ g.Sublist l ∧
          ∀ b ∈ rest, |a.timestamp - b.timestamp| ≤ w := by
  intro n
  induction n with
  | zero =>
    intro l hl
    have hnil : l = [] := List.length_eq_zero.mp (Nat.le_zero.mp hl)
    subst hnil
    simp [correlateGroupsFuel]
  | succ n ih =>
    intro l hl g hg
    cases l with
    | nil => simp [correlateGroupsFuel] at hg
    | cons a rest =>
      rw [correlateGroupsFuel] at hg
      rcases List.mem_cons.mp hg with rfl | hg'
      · refine ⟨a, rest.filter (withinWindow w a), rfl, ?_, ?_⟩
        · exact List.cons_sublist_cons.mpr (List.filter_sublist _)
        · intro b hb
          have hmem := List.of_mem_filter hb
          simpa [withinWindow] using hmem
      · have hlen : (rest.filter (fun b => ! withinWindow w a b)).length ≤ n := by
          have hf := List.length_filter_le (fun b => ! withinWindow w a b) rest
          simp only [List.length_cons] at hl
          omega
        obtain ⟨a', rest', hg'', hsub, hwin⟩ := ih _ hlen g hg'
        refine ⟨a', rest', hg'', ?_, hwin⟩
        exact hsub.trans ((List.filter_sublist _).trans (List.sublist_cons_self a rest))

/-- C6: every group reported by correlate_anomalies(window) comes from a
group of at least two recorded anomalies in which every pair is within
the window of a common grouped member (the seed); the summary reports
the group size, the set of distinct device ids, the set of distinct
metric types, and a time span equal to the difference between the
maximum and minimum timestamps of the group. -/
theorem correlate_groups_spec (s : AnomalyDetectorState) (w : Int) :
    ∀ summ ∈ correlateAnomalies s w,
      ∃ grp, grp.Sublist s.anomalies ∧
        summ.size = grp.length ∧ 2 ≤ grp.length ∧
        (∀ b ∈ grp, ∀ c ∈ grp, ∃ a ∈ grp,
          |a.timestamp - b.timestamp| ≤ w ∧ |a.timestamp - c.timestamp| ≤ w) ∧
        (∀ d, d ∈ summ.devices ↔ ∃ a ∈ grp, a.metric.deviceId = d) ∧
        summ.devices.Nodup ∧
        (∀ mt, mt ∈ summ.metrics ↔ ∃ a ∈ grp, a.metric.metricType.value = mt) ∧
        summ.metrics.Nodup ∧
        summ.timeSpanSeconds = maxTs grp - minTs grp ∧
        (∀ a ∈ grp, minTs grp ≤ a.timestamp ∧ a.timestamp ≤ maxTs grp) ∧
        (∃ a ∈ grp, a.timestamp = maxTs grp) ∧
        (∃ a ∈ grp, a.timestamp = minTs grp) := by
  intro summ hs
  unfold correlateAnomalies correlateGroups at hs
  obtain ⟨grp, hgrpmem, hsumm⟩ := List.mem_map.mp hs
  obtain ⟨hgk, hlen⟩ := List.mem_filter.mp hgrpmem
  have hlen2 : 2 ≤ grp.length := by
    simp only [decide_eq_true_eq] at hlen
    omega
  obtain ⟨a, rest, rfl, hsub, hwin⟩ :=
    correlateGroupsFuel_spec w s.anomalies.length s.anomalies le_rfl grp hgk
  subst hsumm
  have hw0 : 0 ≤ w := by
    have hne : rest ≠ [] := by
      intro hx
      rw [hx] at hlen2
      simp at hlen2
    obtain ⟨b, hb⟩ := List.exists_mem_of_ne_nil rest hne
    have hbw := hwin b hb
    have habs : (0 : Int) ≤ |a.timestamp - b.timestamp| := abs_nonneg _
    omega
  have hall : ∀ b ∈ a :: rest, |a.timestamp - b.timestamp| ≤ w := by
    intro b hb
    rcases List.mem_cons.mp hb with rfl | hb'
    · simpa using hw0
    · exact hwin b hb'
  refine ⟨a :: rest, hsub, rfl, hlen2, ?_, ?_, ?_, ?_, ?_, rfl, ?_, ?_, ?_⟩
  · intro b hb c hc
    exact ⟨a, by simp, hall b hb, hall c hc⟩
  · intro d
    simp [summarize, List.mem_dedup, List.mem_map]
    tauto
  · exact List.nodup_dedup _
  · intro mt
    simp [summarize, List.mem_dedup, List.mem_map]
    tauto
  · exact List.nodup_dedup _
  · intro x hx
    exact ⟨(minTs_spec a rest).1 x hx, (maxTs_spec a rest).1 x hx⟩
  · exact (maxTs_spec a rest).2
  · exact (minTs_spec a rest).2

/-- Witness for C6 on a concrete anomaly list with window 300. -/
theorem correlate_groups_spec_witness :
    wSumm ∈ correlateAnomalies wDetectorAnoms 300 ∧
    ∃ grp, grp.Sublist wDetectorAnoms.anomalies ∧ wSumm.size = grp.length ∧
      2 ≤ grp.length ∧ wSumm.timeSpanSeconds = maxTs grp - minTs grp := by
  have h := correlate_groups_spec wDetectorAnoms 300 wSumm (by decide)
  obtain ⟨grp, hsub, hsize, hlen, hpair, hdev, hdnd, hmet, hmnd, hspan, hbnd, hmax, hmin⟩ := h
  exact ⟨by decide, grp, hsub, hsize, hlen, hspan⟩

/-- C7 (amended): on at least 3 values with positive ordinary-least-
squares slope m over (i, yi), the prediction is breach_predicted; the
reported time_to_breach_hours is round((threshold - latest) / m *
interval_seconds / 3600, 1) WITHOUT clipping at 0 (only the absolute
estimated_breach_time clips negative delays to 0), and the confidence is
R-squared = 1 - ss_res/ss_tot, clamped below at 0 and rounded to 3
digits (1.0 when ss_tot = 0). -/
theorem forecast_breach_spec (values : List ℚ) (threshold intervalSeconds : ℚ)
    (h3 : 3 ≤ values.length)
    (hpos : 0 < (linearRegression ((List.range values.length).map (fun i => (i : ℚ)))
      values).1) :
    ∃ conf,
      predictThresholdBreach values threshold intervalSeconds =
        ForecastPrediction.breachPredicted
          (pyRound (values.getLastD 0) 2) threshold
          (pyRound ((linearRegression ((List.range values.length).map
            (fun i => (i : ℚ))) values).1) 6)
          (max 0 ((threshold - values.getLastD 0) /
            (linearRegression ((List.range values.length).map
              (fun i => (i : ℚ))) values).1 * intervalSeconds))
          (pyRound ((threshold - values.getLastD 0) /
            (linearRegression ((List.range values.length).map
              (fun i => (i : ℚ))) values).1 * intervalSeconds / 3600) 1)
          conf ∧
      ((values.map (fun yi => (yi - listMean values) ^ 2)).sum ≠ 0 →
        conf = pyRound (max 0 (1 -
          ((((List.range values.length).map (fun i => (i : ℚ))).zip values).map
            (fun p => (p.2 -
              ((linearRegression ((List.range values.length).map
                (fun i => (i : ℚ))) values).1 * p.1 +
               (linearRegression ((List.range values.length).map
                (fun i => (i : ℚ))) values).2)) ^ 2)).sum /
          (values.map (fun yi => (yi - listMean values) ^ 2)).sum)) 3) ∧
      ((values.map (fun yi => (yi - listMean values) ^ 2)).sum = 0 → conf = 1) := by
  refine ⟨calculateConfidence ((List.range values.length).map (fun i => (i : ℚ)))
    values
    (linearRegression ((List.range values.length).map (fun i => (i : ℚ))) values).1
    (linearRegression ((List.range values.length).map (fun i => (i : ℚ))) values).2,
    ?_, ?_, ?_⟩
  · simp only [predictThresholdBreach]
    rw [if_neg (by omega : ¬ values.length < 3), if_neg (not_le.mpr hpos)]
  · intro h0
    simp [calculateConfidence, h0]
  · intro h0
    simp [calculateConfidence, h0]

/-- Counterexample to C7 as stated: values already above the threshold
with positive slope give a NEGATIVE time_to_breach_hours (-0.9 here),
while the claim says the conversion clips at 0; only the breach-time
delay field is clipped (it is 0 here). -/
theorem forecast_negative_hours_cex :
    predictThresholdBreach [100, 101, 102] 50 60 =
      ForecastPrediction.breachPredicted 102 50 1 0 (-(9/10)) 1 ∧
    pyRound (max 0 (((50 : ℚ) - 102) / 1 * 60) / 3600) 1 = 0 ∧
    (-(9/10) : ℚ) < 0 := by
  refine ⟨?_, ?_, ?_⟩
  · norm_num [predictThresholdBreach, linearRegression, calculateConfidence, listMean,
      pyRound, roundHalfEven, show List.range 3 = [0, 1, 2] from rfl, List.zip,
      max_def, show ([100, 101, 102] : List ℚ).getLastD 0 = 102 from rfl]
  · norm_num [pyRound, roundHalfEven, max_def]
  · norm_num

/-- Witness for C7: on [10,12,...,28] with threshold 50 and 60 s
intervals, the slope is exactly 2, time to breach is (50-28)/2 = 11
intervals = 660 s, reported as 0.2 hours with confidence 1. -/
theorem forecast_breach_spec_witness :
    predictThresholdBreach [10, 12, 14, 16, 18, 20, 22, 24, 26, 28] 50 60 =
      ForecastPrediction.breachPredicted 28 50 2 660 (2/10) 1 := by
  obtain ⟨conf, heq, hc, _⟩ := forecast_breach_spec
    [10, 12, 14, 16, 18, 20, 22, 24, 26, 28] 50 60 (by norm_num)
    (by norm_num [linearRegression,
      show List.range 10 = [0, 1, 2, 3, 4, 5, 6, 7, 8, 9] from rfl, List.zip])
  rw [heq, hc (by norm_num [listMean])]
  norm_num [pyRound, roundHalfEven, linearRegression, listMean,
    show List.range 10 = [0, 1, 2, 3, 4, 5, 6, 7, 8, 9] from rfl, List.zip, max_def,
    show ([10, 12, 14, 16, 18, 20, 22, 24, 26, 28] : List ℚ).getLastD 0 = 28 from rfl]

theorem blast_invariant (adj : String → Finset String) (d : String) :
    ∀ h : Nat,
      (∀ v, v ∈ ((blastStep adj d)^[h] (∅, {d})).1 ↔ v ≠ d ∧ reachLe adj d h v) ∧
      (∀ v, v ∈ ((blastStep adj d)^[h] (∅, {d})).2 ↔
        ((h = 0 ∧ v = d) ∨
         (0 < h ∧ v ≠ d ∧ reachLe adj d h v ∧ ¬ reachLe adj d (h - 1) v))) := by
  intro h
  induction h with
  | zero =>
    constructor
    · intro v
      simp only [Function.iterate_zero, id]
      constructor
      · intro hx
        exact absurd hx (Finset.not_mem_empty v)
      · rintro ⟨hvd, n, hn, hr⟩
        have hn0 : n = 0 := Nat.le_zero.mp hn
        subst hn0
        exact absurd hr hvd
    · intro v
      simp only [Function.iterate_zero, id, Finset.mem_singleton]
      constructor
      · intro hv
        exact Or.inl ⟨by trivial, hv⟩
      · rintro (⟨-, hv⟩ | ⟨hpos, -⟩)
        · exact hv
        · exact absurd hpos (by omega)
  | succ h ih =>
    obtain ⟨ihA, ihL⟩ := ih
    rw [Function.iterate_succ_apply']
    have hnext : ∀ v, v ∈ (blastStep adj d ((blastStep adj d)^[h] (∅, {d}))).2 ↔
        ((h + 1 = 0 ∧ v = d) ∨
         (0 < h + 1 ∧ v ≠ d ∧ reachLe adj d (h + 1) v ∧ ¬ reachLe adj d h v)) := by
      intro v
      simp only [blastStep, Finset.mem_filter, Finset.mem_biUnion]
      constructor
      · rintro ⟨⟨u, hu, hv⟩, hnotA, hvd⟩
        rcases (ihL u).mp hu with ⟨hh0, hud⟩ | ⟨hpos, hud, hule, hnotle⟩
        · rw [hud] at hv
          subst hh0
          refine Or.inr ⟨by omega, hvd, ⟨1, by omega, d, rfl, hv⟩, ?_⟩
          rintro ⟨n, hn, hr⟩
          have hn0 : n = 0 := by omega
          subst hn0
          exact hvd hr
        · obtain ⟨n, hn, hrn⟩ := hule
          have hne : n = h := by
            by_contra hneq
            exact hnotle ⟨n, by omega, hrn⟩
          subst hne
          refine Or.inr ⟨by omega, hvd, ⟨n + 1, le_rfl, u, hrn, hv⟩, ?_⟩
          intro hcon
          exact hnotA ((ihA v).mpr ⟨hvd, hcon⟩)
      · rintro (⟨hcon, -⟩ | ⟨-, hvd, ⟨n, hn, hrn⟩, hnot⟩)
        · exact absurd hcon (by omega)
        · have hne : n = h + 1 := by
            by_contra hneq
            exact hnot ⟨n, by omega, hrn⟩
          subst hne
          obtain ⟨u, hru, hvu⟩ := hrn
          refine ⟨⟨u, ?_, hvu⟩, ?_, hvd⟩
          · rcases Nat.eq_zero_or_pos h with rfl | hpos
            · have hud : u = d := hru
              exact (ihL u).mpr (Or.inl ⟨rfl, hud⟩)
            · refine (ihL u).mpr (Or.inr ⟨hpos, ?_, ⟨h, le_rfl, hru⟩, ?_⟩)
              · intro hud2
                rw [hud2] at hvu
                exact hnot ⟨1, by omega, d, rfl, hvu⟩
              · rintro ⟨m, hm, hrm⟩
                exact hnot ⟨m + 1, by omega, u, hrm, hvu⟩
          · intro hmem
            exact hnot ((ihA v).mp hmem).2
    constructor
    · intro v
      have hfst : (blastStep adj d ((blastStep adj d)^[h] (∅, {d}))).1 =
          ((blastStep adj d)^[h] (∅, {d})).1 ∪
            (blastStep adj d ((blastStep adj d)^[h] (∅, {d}))).2 := rfl
      rw [hfst, Finset.mem_union]
      constructor
      · rintro (hv | hv)
        · obtain ⟨hvd, n, hn, hrn⟩ := (ihA v).mp hv
          exact ⟨hvd, n, by omega, hrn⟩
        · rcases (hnext v).mp hv with ⟨hcon, -⟩ | ⟨-, hvd, hle, -⟩
          · exact absurd hcon (by omega)
          · exact ⟨hvd, hle⟩
      · rintro ⟨hvd, n, hn, hrn⟩
        by_cases hA : v ∈ ((blastStep adj d)^[h] (∅, {d})).1
        · exact Or.inl hA
        · have hnotle : ¬ reachLe adj d h v := fun hcon =>
            hA ((ihA v).mpr ⟨hvd, hcon⟩)
          exact Or.inr ((hnext v).mpr (Or.inr ⟨by omega, hvd, ⟨n, hn, hrn⟩, hnotle⟩))
    · exact hnext

/-- C8: get_blast_radius returns exactly the devices reachable from the
source within max_hops hops of the adjacency, excluding the source; for
max_hops = 1 it is the neighbor set minus the source, whose cardinality
is the degree whenever the source is not its own neighbor. -/
theorem blast_radius_reachability (ns : List (String × String)) (d : String) (k : Nat) :
    (∀ v, v ∈ get_blast_radius (adjacencyOf ns) d k ↔
      v ≠ d ∧ reachLe (adjacencyOf ns) d k v) ∧
    get_blast_radius (adjacencyOf ns) d 1 = (adjacencyOf ns d).erase d ∧
    (d ∉ adjacencyOf ns d →
      (get_blast_radius (adjacencyOf ns) d 1).card = (adjacencyOf ns d).card) := by
  have h2 : get_blast_radius (adjacencyOf ns) d 1 = (adjacencyOf ns d).erase d := by
    unfold get_blast_radius
    rw [Function.iterate_one]
    ext v
    simp only [blastStep, Finset.mem_union, Finset.not_mem_empty, Finset.mem_filter,
      Finset.mem_biUnion, Finset.mem_singleton, Finset.mem_erase, false_or]
    constructor
    · rintro ⟨⟨u, hud, hv⟩, -, hvd⟩
      subst hud
      exact ⟨hvd, hv⟩
    · rintro ⟨hvd, hv⟩
      exact ⟨⟨d, rfl, hv⟩, fun hx => hx.elim, hvd⟩
  refine ⟨?_, h2, ?_⟩
  · intro v
    exact (blast_invariant (adjacencyOf ns) d k).1 v
  · intro hd
    rw [h2, Finset.erase_eq_self.mpr hd]

/-- Witness for C8: in the path a - b - c, the blast radius of a at one
hop has cardinality 1, the degree of a. -/
theorem blast_radius_reachability_witness :
    "a" ∉ adjacencyOf wNeighbors "a" ∧
    (get_blast_radius (adjacencyOf wNeighbors) "a" 1).card =
      (adjacencyOf wNeighbors "a").card ∧
    (adjacencyOf wNeighbors "a").card = 1 := by
  refine ⟨by decide, (blast_radius_reachability wNeighbors "a" 1).2.2 (by decide),
    by decide⟩

end NetOpsHub
